import Mathlib

/-!
Verification of the VittaManthan AI-service query core against its
specification.

Shallow embedding conventions:
* Python floats are modelled as exact rationals (`ℚ`).  Rational values
  produced by parsing are built with `mkRat` from integer arithmetic.
* A transaction record is a loosely-typed dictionary in the source
  (`Dict[str, Any]`); we model exactly the fields the core reads, each
  optional (`none` = key absent).  The `amount` field may hold a number or
  an arbitrary string (`Val`), since the API endpoints pass records through
  unvalidated (`context_data: List[Dict[str, Any]]`).
* Python exceptions are modelled with `Except String`; a raised exception
  is `.error msg`.
* `datetime.now()` instants and cache timestamps are modelled as integers
  in minutes (the clock granularity is irrelevant to every claim; the TTL
  comparison `now - timestamp > timedelta(minutes=30)` becomes integer
  comparison with `CACHE_TTL_MINUTES = 30`).
* Presentation-only text (the `₹{:,.2f}` money formatting inside filter
  description strings) is abstracted by a plain decimal rendering
  (`ratRepr`); no claim depends on the text of a description.
-/

deriving instance DecidableEq for Except

/-- A loosely-typed field value: a JSON number or a string.  Models the
possible runtime types of the `amount` entry of a transaction dict. -/
inductive Val where
  | num (q : ℚ)
  | str (s : String)
deriving DecidableEq

/-- The fields of a transaction dict that the query core reads
(`filters.py`, `query_mode.py`, `transactions.py`).  `none` models an
absent key. -/
structure Record where
  txnId : Option String := none
  accountId : Option String := none
  accountNumber : Option String := none
  createdAt : Option String := none
  amount : Option Val := none
  currentBalance : Option Val := none
  balance : Option Val := none
  mode : Option String := none
  txnMode : Option String := none
  narration : Option String := none
  reference : Option String := none
  txnRef : Option String := none
  pk_GSI_1 : Option String := none
deriving DecidableEq

/-- The date filter dict: a Python dict that may carry `month` and/or
`year` keys (`extract_filters_from_query`). -/
structure DateFilter where
  month : Option Nat := none
  year : Option Nat := none
deriving DecidableEq

/-- The filter dict produced by `extract_filters_from_query` and consumed
by `apply_filters`. -/
structure FilterSet where
  amount_above : Option ℚ := none
  amount_below : Option ℚ := none
  amount_range : Option (ℚ × ℚ) := none
  date_filter : Option DateFilter := none
  mode : Option String := none
  type : Option String := none
  account_id : Option String := none
  person_name : Option String := none
  strict_name_match : Bool := false
deriving DecidableEq

/-- Python whitespace characters recognised by `str.split`, `\s` and
`float()` stripping (ASCII portion). -/
def isWsC (c : Char) : Bool :=
  c == ' ' || c == '\t' || c == '\n' || c == '\r' || c == '\x0b' || c == '\x0c'

/-- `str.lower()` on a character (ASCII case mapping; identity on
Devanagari, as in Python for those code points). -/
def pyLowerC (c : Char) : Char := c.toLower

/-- `question.lower()` as a character list. -/
def pyLowerL (s : String) : List Char := s.data.map pyLowerC

/-- `str.lower()` returning a string. -/
def pyLowerS (s : String) : String := ⟨pyLowerL s⟩

/-- `str.upper()` (ASCII). -/
def pyUpperS (s : String) : String := ⟨s.data.map Char.toUpper⟩

/-- Substring containment, Python `needle in hay` on strings. -/
def infixOfB (needle hay : List Char) : Bool :=
  (List.range (hay.length + 1)).any fun i => needle.isPrefixOf (hay.drop i)

/-- Value of a list of decimal digit characters. -/
def digitsToNat (ds : List Char) : Nat :=
  ds.foldl (fun a c => a * 10 + (c.toNat - 48)) 0

/-- Parse an unsigned decimal literal: digits with an optional fractional
part, at least one digit overall, nothing left over.  Returns
(integer part, fractional digits value, number of fractional digits). -/
def parseUnsigned (cs : List Char) : Option (Nat × Nat × Nat) :=
  let p := cs.span Char.isDigit
  match p.2 with
  | [] => if p.1.isEmpty then none else some (digitsToNat p.1, 0, 0)
  | c :: r2 =>
    if c == '.' then
      let pf := r2.span Char.isDigit
      if pf.2.isEmpty then
        if p.1.isEmpty && pf.1.isEmpty then none
        else some (digitsToNat p.1, digitsToNat pf.1, pf.1.length)
      else none
    else none

/-- Python `float(s)` on plain decimal literals (optional surrounding
whitespace, optional sign, digits and an optional fractional part), with
the result additionally multiplied by the natural number `scale` (used for
the `k`/`l` suffixes).  Exponents, `inf` and `nan` are outside the model;
every amount string exercised by the claims is covered.  `none` models a
`ValueError`. -/
def parseDecimalScaled (cs : List Char) (scale : Nat) : Option ℚ :=
  let cs1 := ((cs.dropWhile isWsC).reverse.dropWhile isWsC).reverse
  match cs1 with
  | '+' :: r =>
    (parseUnsigned r).map fun t => mkRat ((t.1 * 10 ^ t.2.2 + t.2.1) * scale) (10 ^ t.2.2)
  | '-' :: r =>
    (parseUnsigned r).map fun t => mkRat (-(((t.1 * 10 ^ t.2.2 + t.2.1) * scale : Nat) : Int)) (10 ^ t.2.2)
  | r =>
    (parseUnsigned r).map fun t => mkRat ((t.1 * 10 ^ t.2.2 + t.2.1) * scale) (10 ^ t.2.2)

/-- Python `float(s)`. -/
def parseDecimal (cs : List Char) : Option ℚ := parseDecimalScaled cs 1

/-- `float(v)` on an amount value: numbers pass through, strings are
parsed.  `none` models the `ValueError` raised on an unparsable string. -/
def pyFloatVal : Val → Option ℚ
  | .num q => some q
  | .str s => parseDecimal s.data

/-- `float(d.get('amount', 0))` as an exception-carrying computation:
a missing key defaults to `0`, an unparsable string raises. -/
def floatAmountE (d : Record) : Except String ℚ :=
  match d.amount with
  | none => .ok 0
  | some v =>
    match pyFloatVal v with
    | some q => .ok q
    | none => .error "ValueError"

/-- The parsed amount of a record (specification-side view used in claim
statements): `0` for a missing field, the parsed value otherwise. -/
def amtVal (d : Record) : ℚ :=
  match d.amount with
  | none => 0
  | some v => (pyFloatVal v).getD 0

/-- Kernel-computable decimal rendering of a natural number (fuel-based;
`Nat.repr` is not used because claim witnesses evaluate in the kernel). -/
def natReprAux : Nat → Nat → List Char
  | 0, _ => []
  | f + 1, n =>
    if n < 10 then [Char.ofNat (48 + n)]
    else natReprAux f (n / 10) ++ [Char.ofNat (48 + n % 10)]

/-- Decimal rendering of a natural number. -/
def natRepr (n : Nat) : String := ⟨natReprAux (n + 1) n⟩

/-- Decimal rendering of an integer. -/
def intRepr : Int → String
  | .ofNat n => natRepr n
  | .negSucc n => "-" ++ natRepr (n + 1)

/-- Plain rendering of a rational, standing in for Python money formatting
in filter description strings (presentation only; no claim depends on the
text). -/
def ratRepr (q : ℚ) : String :=
  if q.den = 1 then intRepr q.num else intRepr q.num ++ "/" ++ natRepr q.den

/-! ## Date parsing (`datetime.strptime(date_str[:10], '%Y-%m-%d')`) -/

/-- Gregorian leap-year rule used by `datetime`. -/
def isLeap (y : Nat) : Bool := y % 4 == 0 && (y % 100 != 0 || y % 400 == 0)

/-- Days in a month, as validated by the `datetime` constructor. -/
def daysInMonth (y m : Nat) : Nat :=
  if m == 2 then (if isLeap y then 29 else 28)
  else if m == 4 || m == 6 || m == 9 || m == 11 then 30
  else 31

/-- The two-digit alternatives of strptime's `%d` regex
(`3[01]|[12]\d|0[1-9]`). -/
def day2Pat (a b : Char) : Bool :=
  (a == '3' && (b == '0' || b == '1')) ||
  ((a == '1' || a == '2') && b.isDigit) ||
  (a == '0' && '1' ≤ b && b ≤ '9')

/-- strptime day parsing: a two-digit day (tried first, as in the regex
alternation) or a one-digit day, followed by end of input (strptime
rejects unconverted trailing data). -/
def parseDayPart (cs : List Char) : Option Nat :=
  let two : Option Nat :=
    match cs with
    | [a, b] => if day2Pat a b then some (10 * (a.toNat - 48) + (b.toNat - 48)) else none
    | _ => none
  match two with
  | some d => some d
  | none =>
    match cs with
    | [a] => if '1' ≤ a && a ≤ '9' then some (a.toNat - 48) else none
    | _ => none

/-- The two-digit alternatives of strptime's `%m` regex
(`1[0-2]|0[1-9]`). -/
def month2Pat (a b : Char) : Bool :=
  (a == '1' && (b == '0' || b == '1' || b == '2')) ||
  (a == '0' && '1' ≤ b && b ≤ '9')

/-- strptime parsing of `m-d` with the regex's backtracking: a two-digit
month is preferred, falling back to a one-digit month if the remainder
fails to parse. -/
def parseMonthDay (cs : List Char) : Option (Nat × Nat) :=
  let two : Option (Nat × Nat) :=
    match cs with
    | a :: b :: c :: rest =>
      if month2Pat a b && c == '-' then
        (parseDayPart rest).map fun d => (10 * (a.toNat - 48) + (b.toNat - 48), d)
      else none
    | _ => none
  match two with
  | some r => some r
  | none =>
    match cs with
    | a :: c :: rest =>
      if '1' ≤ a && a ≤ '9' && c == '-' then
        (parseDayPart rest).map fun d => (a.toNat - 48, d)
      else none
    | _ => none

/-- `datetime.strptime(s, '%Y-%m-%d')` followed by the `datetime`
validity check: exactly four year digits, dash, month, dash, day, end of
input; `none` models the `ValueError` of an unparsable or invalid date. -/
def parseYMD (cs : List Char) : Option (Nat × Nat × Nat) :=
  match cs with
  | y1 :: y2 :: y3 :: y4 :: c :: rest =>
    if y1.isDigit && y2.isDigit && y3.isDigit && y4.isDigit && c == '-' then
      let y := digitsToNat [y1, y2, y3, y4]
      if y == 0 then none
      else
        match parseMonthDay rest with
        | some md => if md.2 ≤ daysInMonth y md.1 then some (y, md.1, md.2) else none
        | none => none
    else none
  | _ => none

/-! ## `apply_filters` (filters.py lines 149-262) -/

/-- The date predicate of the date filter stage: the record's
`createdAt` must be non-empty, its first 10 characters must parse as
`YYYY-MM-DD`, and the parsed year/month must equal whichever of the
filter's `year`/`month` keys are present.  An unparsable date is a
non-match (the stage's `try/except` swallows the error). -/
def datePred (df : DateFilter) (d : Record) : Bool :=
  let ds := d.createdAt.getD ""
  if ds.isEmpty then false
  else
    match parseYMD (ds.data.take 10) with
    | none => false
    | some ymd =>
      (match df.year with | some fy => ymd.1 == fy | none => true) &&
      (match df.month with | some fm => ymd.2.1 == fm | none => true)

/-- The `month_names` list of the date stage. -/
def monthNamesShort : List String :=
  ["Jan", "Feb", "Mar", "Apr", "May", "Jun", "Jul", "Aug", "Sep", "Oct", "Nov", "Dec"]

/-- `month_names[month - 1]` with Python list indexing: index `-1` (month
0) wraps to `Dec`; an index past the end raises `IndexError`. -/
def monthNameAt (m : Nat) : Except String String :=
  if m == 0 then .ok "Dec"
  else if m ≤ 12 then .ok (monthNamesShort.getD (m - 1) "")
  else .error "IndexError"

/-- The description lines appended by the date stage: month and year give
`Date: Mon YYYY`, a year alone gives `Year: YYYY`, a month alone appends
nothing. -/
def dateDesc (df : DateFilter) : Except String (List String) :=
  match df.month, df.year with
  | some m, some y => do
    let nm ← monthNameAt m
    pure ["Date: " ++ nm ++ " " ++ natRepr y]
  | none, some y => pure ["Year: " ++ natRepr y]
  | _, none => pure []

/-- The date filter stage.  The guard models Python dict truthiness:
`filters.get('date_filter')` is falsy when absent or an empty dict. -/
def dateStage (docs : List Record) (odf : Option DateFilter) :
    Except String (List Record × List String) :=
  match odf with
  | none => .ok (docs, [])
  | some df =>
    if df.month.isSome || df.year.isSome then
      match dateDesc df with
      | .error e => .error e
      | .ok ds => .ok (docs.filter (datePred df), ds)
    else .ok (docs, [])

/-- `d.get('mode', d.get('txnMode', ''))`. -/
def getModeField (d : Record) : String := d.mode.getD (d.txnMode.getD "")

/-- The mode filter stage: case-insensitive equality of the record's mode
with the filter's mode.  An empty-string mode is falsy and skips the
stage. -/
def modeStage (docs : List Record) (om : Option String) :
    List Record × List String :=
  match om with
  | none => (docs, [])
  | some m =>
    if m.isEmpty then (docs, [])
    else (docs.filter (fun d => pyUpperS (getModeField d) == pyUpperS m), ["Mode: " ++ m])

/-- The type filter stage: `txn_type in d.get('pk_GSI_1', '')` is
substring containment. -/
def typeStage (docs : List Record) (ot : Option String) :
    List Record × List String :=
  match ot with
  | none => (docs, [])
  | some t =>
    if t.isEmpty then (docs, [])
    else (docs.filter (fun d => infixOfB t.data (d.pk_GSI_1.getD "").data), ["Type: " ++ t])

/-- Exception-aware filtering of a list, matching a Python list
comprehension whose predicate may raise: elements are tested left to
right and the first raised exception propagates. -/
def filterE (p : α → Except String Bool) : List α → Except String (List α)
  | [] => .ok []
  | d :: ds =>
    match p d with
    | .error e => .error e
    | .ok b =>
      match filterE p ds with
      | .error e => .error e
      | .ok r => .ok (if b then d :: r else r)

/-- The `amount_below` branch of the amount stage (reached when neither a
range nor a truthy `amount_above` is present).  A threshold of `0` is
falsy in Python and skips the stage. -/
def amountBelowStage (docs : List Record) (ob : Option ℚ) :
    Except String (List Record × List String) :=
  match ob with
  | none => .ok (docs, [])
  | some t =>
    if t == 0 then .ok (docs, [])
    else
      match filterE (fun d => (floatAmountE d).map fun q => decide (q < t)) docs with
      | .error e => .error e
      | .ok r => .ok (r, ["Amount below: " ++ ratRepr t])

/-- The amount stage: `amount_range` wins, else a truthy `amount_above`,
else a truthy `amount_below`, else no amount filtering.  The bounds of
the range are inclusive, above/below are strict.  A numeric threshold of
`0` is falsy and deactivates above/below (Python truthiness of `0.0`). -/
def amountStage (docs : List Record) (F : FilterSet) :
    Except String (List Record × List String) :=
  match F.amount_range with
  | some mm =>
    match filterE (fun d => (floatAmountE d).map fun q => decide (mm.1 ≤ q) && decide (q ≤ mm.2)) docs with
    | .error e => .error e
    | .ok r => .ok (r, ["Amount: " ++ ratRepr mm.1 ++ " - " ++ ratRepr mm.2])
  | none =>
    match F.amount_above with
    | some t =>
      if t == 0 then amountBelowStage docs F.amount_below
      else
        match filterE (fun d => (floatAmountE d).map fun q => decide (t < q)) docs with
        | .error e => .error e
        | .ok r => .ok (r, ["Amount above: " ++ ratRepr t])
    | none => amountBelowStage docs F.amount_below

/-- The account filter stage: case-insensitive equality of
`d.get('accountId', d.get('accountNumber', ''))` with the filter's
account id. -/
def accountStage (docs : List Record) (oa : Option String) :
    List Record × List String :=
  match oa with
  | none => (docs, [])
  | some a =>
    if a.isEmpty then (docs, [])
    else
      (docs.filter (fun d =>
        pyLowerS (d.accountId.getD (d.accountNumber.getD "")) == pyLowerS a),
       ["Account: " ++ a])

/-- `name.split()`: split on runs of whitespace, dropping empty pieces. -/
def splitWsAux : List Char → List Char → List (List Char)
  | [], acc => if acc.isEmpty then [] else [acc.reverse]
  | c :: rest, acc =>
    if isWsC c then
      if acc.isEmpty then splitWsAux rest [] else acc.reverse :: splitWsAux rest []
    else splitWsAux rest (c :: acc)

/-- `name.split()`. -/
def splitWs (cs : List Char) : List (List Char) := splitWsAux cs []

/-- Word characters for `\b` (ASCII alphanumerics, underscore, and the
Devanagari block; Python's full-unicode `\w` restricted to the alphabets
the repository uses). -/
def isWordChar (c : Char) : Bool :=
  c.isAlphanum || c == '_' || (0x900 ≤ c.toNat && c.toNat ≤ 0x97F)

/-- Whether position `i` holds a word character. -/
def isWordAt (s : List Char) (i : Nat) : Bool :=
  if i < s.length then isWordChar (s.getD i ' ') else false

/-- The regex word boundary `\b` at position `i` (between characters
`i - 1` and `i`; the ends of the string count as non-word). -/
def boundaryAt (s : List Char) (i : Nat) : Bool :=
  (if i == 0 then false else isWordAt s (i - 1)) != isWordAt s i

/-- Characters `[j, k)` of `s` are all whitespace (with `j ≤ k ≤ |s|`). -/
def wsSeg (s : List Char) (j k : Nat) : Bool :=
  j ≤ k && k ≤ s.length && ((s.drop j).take (k - j)).all isWsC

/-- Bounded existential over positions, used to model regex search. -/
def existsUpTo (n : Nat) (p : Nat → Bool) : Bool := (List.range n).any p

/-- One word-sequence step of the strict-name regex
`\b w1 \s+ w2 \s+ ... wn \b`: from position `i`, the words match
separated by runs of whitespace, with a word boundary after the last. -/
def seqMatchFrom (s : List Char) (i : Nat) : List (List Char) → Bool
  | [] => boundaryAt s i
  | [w] => w.isPrefixOf (s.drop i) && boundaryAt s (i + w.length)
  | w :: rest =>
    w.isPrefixOf (s.drop i) &&
    existsUpTo (s.length + 1) fun k =>
      decide (i + w.length < k) && wsSeg s (i + w.length) k && seqMatchFrom s k rest

/-- The strict person-name match (`re.search` of the word-boundary
pattern over the narration, case-insensitively: both sides are
lowered). -/
def strictNameMatch (words : List (List Char)) (narr : List Char) : Bool :=
  existsUpTo (narr.length + 1) fun i => boundaryAt narr i && seqMatchFrom narr i words

/-- The person-name filter stage: a strict multi-word name requires the
word-boundary sequence match in the narration; a strict single-word name
and every loose name use case-insensitive substring containment. -/
def personStage (docs : List Record) (onm : Option String) (strict : Bool) :
    List Record × List String :=
  match onm with
  | none => (docs, [])
  | some n =>
    if n.isEmpty then (docs, [])
    else if strict then
      (docs.filter (fun d =>
        let words := splitWs n.data
        if 2 ≤ words.length then
          strictNameMatch (words.map (List.map pyLowerC)) (pyLowerL (d.narration.getD ""))
        else infixOfB (pyLowerL n) (pyLowerL (d.narration.getD ""))),
       ["EXACT name: " ++ n])
    else
      (docs.filter (fun d => infixOfB (pyLowerL n) (pyLowerL (d.narration.getD ""))),
       ["Person: " ++ n])

/-- `apply_filters(documents, filters, question)` (the `question`
parameter is unused by the source and omitted).  Sequential
AND-composition: date, mode, type, amount, account, person name; each
stage appends its description lines.  `.error` models an uncaught Python
exception (`float` on an unparsable amount, `month_names` index out of
range). -/
def apply_filters (documents : List Record) (filters : FilterSet) :
    Except String (List Record × List String) :=
  match dateStage documents filters.date_filter with
  | .error e => .error e
  | .ok fd1 =>
    let fd2 := modeStage fd1.1 filters.mode
    let fd3 := typeStage fd2.1 filters.type
    match amountStage fd3.1 filters with
    | .error e => .error e
    | .ok fd4 =>
      let fd5 := accountStage fd4.1 filters.account_id
      let fd6 := personStage fd5.1 filters.person_name filters.strict_name_match
      .ok (fd6.1, fd1.2 ++ fd2.2 ++ fd3.2 ++ fd4.2 ++ fd5.2 ++ fd6.2)

/-- The statistics dict `{count, total, average, max, min}`. -/
structure Stats where
  count : Nat
  total : ℚ
  average : ℚ
  max : ℚ
  min : ℚ
deriving DecidableEq

/-- Python `max(list)` on a non-empty list (`0` guard for empty, matching
the source's `if amounts else 0`). -/
def pyMax : List ℚ → ℚ
  | [] => 0
  | a :: as => as.foldl max a

/-- Python `min(list)`. -/
def pyMin : List ℚ → ℚ
  | [] => 0
  | a :: as => as.foldl min a

/-- Exception-aware `map`, matching a Python list comprehension. -/
def mapME (f : α → Except String β) : List α → Except String (List β)
  | [] => .ok []
  | a :: as =>
    match f a with
    | .error e => .error e
    | .ok b =>
      match mapME f as with
      | .error e => .error e
      | .ok bs => .ok (b :: bs)

/-- `calculate_statistics(documents, filters)` (query_mode.py lines
91-114): re-apply the filters, return all-zero statistics for an empty
result, otherwise reduce the parsed amounts. -/
def calculate_statistics (documents : List Record) (filters : FilterSet) :
    Except String Stats :=
  match apply_filters documents filters with
  | .error e => .error e
  | .ok fd =>
    if fd.1.isEmpty then
      .ok { count := 0, total := 0, average := 0, max := 0, min := 0 }
    else
      match mapME floatAmountE fd.1 with
      | .error e => .error e
      | .ok amounts =>
        .ok { count := fd.1.length
              total := amounts.sum
              average := if amounts.isEmpty then 0 else amounts.sum / amounts.length
              max := pyMax amounts
              min := pyMin amounts }

/-! ## `detect_query_mode` (query_mode.py lines 12-88) -/

/-- The keyword alternatives of the first two counting patterns,
`(how many|kitne|count|total)`. -/
def countingAlts : List (List Char) :=
  ["how many".data, "kitne".data, "count".data, "total".data]

/-- Match of `\b(how many|kitne|count|total)\s+.*?transaction` anchored at
position `i` with alternative `a`: a word boundary, the keyword, at least
one whitespace character, then `transaction` anywhere later. -/
def countKwMatchAt (s : List Char) (a : List Char) (i : Nat) : Bool :=
  boundaryAt s i && a.isPrefixOf (s.drop i) &&
  decide (i + a.length < s.length) && isWsC (s.getD (i + a.length) ' ') &&
  infixOfB "transaction".data (s.drop (i + a.length + 1))

/-- Search for counting pattern 1,
`\b(how many|kitne|count|total)\s+.*?transaction`. -/
def countPat1 (s : List Char) : Bool :=
  existsUpTo (s.length + 1) fun i => countingAlts.any fun a => countKwMatchAt s a i

/-- Search for counting pattern 2,
`transaction.*?\b(how many|kitne|count|total)`. -/
def countPat2 (s : List Char) : Bool :=
  existsUpTo (s.length + 1) fun i =>
    "transaction".data.isPrefixOf (s.drop i) &&
    existsUpTo (s.length + 1) fun j =>
      decide (i + 11 ≤ j) && boundaryAt s j &&
      countingAlts.any fun a => a.isPrefixOf (s.drop j)

/-- The Devanagari counting keywords of patterns 3 and 4. -/
def hindiCountAlts : List (List Char) := ["कितने".data, "कितनी".data]

/-- The transaction-word alternatives of patterns 3 and 4. -/
def txnWordAlts : List (List Char) := ["transaction".data, "ट्रांज".data]

/-- Search for counting pattern 3,
`\b(कितने|कितनी)\s+.*?(transaction|ट्रांज)`. -/
def countPat3 (s : List Char) : Bool :=
  existsUpTo (s.length + 1) fun i =>
    hindiCountAlts.any fun a =>
      boundaryAt s i && a.isPrefixOf (s.drop i) &&
      decide (i + a.length < s.length) && isWsC (s.getD (i + a.length) ' ') &&
      txnWordAlts.any fun t => infixOfB t (s.drop (i + a.length + 1))

/-- Search for counting pattern 4,
`(transaction|ट्रांज).*?\b(कितने|कितनी)`. -/
def countPat4 (s : List Char) : Bool :=
  existsUpTo (s.length + 1) fun i =>
    txnWordAlts.any fun t =>
      t.isPrefixOf (s.drop i) &&
      existsUpTo (s.length + 1) fun j =>
        decide (i + t.length ≤ j) && boundaryAt s j &&
        hindiCountAlts.any fun a => a.isPrefixOf (s.drop j)

/-- Search for counting pattern 5, `\b(how|kitne)\s+many\b`. -/
def countPat5 (s : List Char) : Bool :=
  existsUpTo (s.length + 1) fun i =>
    ["how".data, "kitne".data].any fun a =>
      boundaryAt s i && a.isPrefixOf (s.drop i) &&
      existsUpTo (s.length + 1) fun k =>
        decide (i + a.length < k) && wsSeg s (i + a.length) k &&
        "many".data.isPrefixOf (s.drop k) && boundaryAt s (k + 4)

/-- Search for counting pattern 6, `\bnumber of\s+transaction`. -/
def countPat6 (s : List Char) : Bool :=
  existsUpTo (s.length + 1) fun i =>
    boundaryAt s i && "number of".data.isPrefixOf (s.drop i) &&
    existsUpTo (s.length + 1) fun k =>
      decide (i + 9 < k) && wsSeg s (i + 9) k && "transaction".data.isPrefixOf (s.drop k)

/-- Priority 1 of the classifier: any counting pattern matches. -/
def countingAny (s : List Char) : Bool :=
  countPat1 s || countPat2 s || countPat3 s || countPat4 s || countPat5 s || countPat6 s

/-- Lower-case hexadecimal digit (the UUID regex uses `[0-9a-f]`). -/
def isHexDig (c : Char) : Bool := c.isDigit || ('a' ≤ c && c ≤ 'f')

/-- `n` hexadecimal digits at position `i`. -/
def hexSeg (s : List Char) (i n : Nat) : Bool :=
  decide (i + n ≤ s.length) && ((s.drop i).take n).all isHexDig

/-- The UUID regex
`[0-9a-f]{8}-[0-9a-f]{4}-[0-9a-f]{4}-[0-9a-f]{4}-[0-9a-f]{12}` anchored
at position `i`. -/
def uuidAt (s : List Char) (i : Nat) : Bool :=
  hexSeg s i 8 && s.getD (i + 8) ' ' == '-' &&
  hexSeg s (i + 9) 4 && s.getD (i + 13) ' ' == '-' &&
  hexSeg s (i + 14) 4 && s.getD (i + 18) ' ' == '-' &&
  hexSeg s (i + 19) 4 && s.getD (i + 23) ' ' == '-' &&
  hexSeg s (i + 24) 12

/-- Search for a UUID anywhere in the question. -/
def hasUuid (s : List Char) : Bool := existsUpTo (s.length + 1) (uuidAt s)

/-- Search for `\b(account|acc|खाता)\s*(?:number|no|#)?\b`: a keyword at a
word boundary, optionally followed by whitespace and one of the option
words, ending at a word boundary.  The bounded existentials model the
regex engine's backtracking over the `\s*` run and the optional group. -/
def accountKwSearch (s : List Char) : Bool :=
  existsUpTo (s.length + 1) fun i =>
    boundaryAt s i &&
    ["account".data, "acc".data, "खाता".data].any fun a =>
      a.isPrefixOf (s.drop i) &&
      existsUpTo (s.length + 1) fun k =>
        wsSeg s (i + a.length) k &&
        (["number".data, "no".data, "#".data].any
           (fun o => o.isPrefixOf (s.drop k) && boundaryAt s (k + o.length)) ||
         boundaryAt s k)

/-- The priority-2 context words checked with plain substring
containment. -/
def accountContextWords : List String := ["transaction", "saari", "all", "list", "dikhao"]

/-- Search for `w1\s*w2` (the priority-3 exclusion patterns
`account\s*number` etc., no word boundaries). -/
def wordGapWord (s w1 w2 : List Char) : Bool :=
  existsUpTo (s.length + 1) fun i =>
    w1.isPrefixOf (s.drop i) &&
    existsUpTo (s.length + 1) fun k =>
      wsSeg s (i + w1.length) k && w2.isPrefixOf (s.drop k)

/-- The priority-3 exclusion: the question mentions an
account/transaction/reference *number*. -/
def excludedForStats (s : List Char) : Bool :=
  wordGapWord s "account".data "number".data ||
  wordGapWord s "transaction".data "number".data ||
  wordGapWord s "reference".data "number".data

/-- The priority-3 pure-statistics keywords. -/
def statsKeywords : List String :=
  ["total amount", "sum of", "average amount", "count of",
   "how many transactions", "kitne transactions"]

/-- The priority-4 full-scan keywords. -/
def fullScanKeywords : List String :=
  ["all", "saari", "sabhi", "sab", "every", "show me", "dikhao",
   "list", "display", "between", "above", "below", "largest", "smallest"]

/-- Search for a bare year token, `\b(20\d{2})\b`. -/
def hasYearToken (s : List Char) : Bool :=
  existsUpTo (s.length + 1) fun i =>
    boundaryAt s i && decide (i + 4 ≤ s.length) &&
    s.getD i ' ' == '2' && s.getD (i + 1) ' ' == '0' &&
    (s.getD (i + 2) ' ').isDigit && (s.getD (i + 3) ' ').isDigit &&
    boundaryAt s (i + 4)

/-- The full month names of the priority-5 regex. -/
def monthNamesFull : List String :=
  ["january", "february", "march", "april", "may", "june", "july",
   "august", "september", "october", "november", "december"]

/-- Search for a full month name between word boundaries. -/
def hasMonthToken (s : List Char) : Bool :=
  monthNamesFull.any fun m =>
    existsUpTo (s.length + 1) fun i =>
      boundaryAt s i && m.data.isPrefixOf (s.drop i) && boundaryAt s (i + m.length)

/-- The priority-6 analytical/summarization keywords. -/
def analyticalKeywords : List String :=
  ["summarize", "summarise", "summary", "analyze", "analyse", "analysis",
   "insights", "patterns", "trends", "overview", "explain", "tell me about",
   "what happened", "describe", "understand", "help me", "guide", "advice",
   "recommend", "suggest", "why", "how", "when", "where", "what",
   "batao", "samjhao", "bataiye", "explain karo", "kya hua"]

/-- Priority 6: an analytical keyword occurs as a substring. -/
def analyticalAny (s : List Char) : Bool :=
  analyticalKeywords.any fun w => infixOfB w.data s

/-- `detect_query_mode(question, documents)`: the fixed-order priority
cascade with early return (the `documents` parameter is unused by the
source and omitted).  Priorities: 1 counting → VECTOR_SEARCH; 2 account
plus a listing word → SMART_FULL; 3 pure statistics keywords (unless a
number-exclusion matches) → STATISTICAL; 4 full-scan keywords →
SMART_FULL; 5 a year or month token together with `transaction` →
SMART_FULL; 6 analytical keywords → VECTOR_SEARCH; default
VECTOR_SEARCH. -/
def detect_query_mode (question : String) : String :=
  let s := pyLowerL question
  if countingAny s then "VECTOR_SEARCH"
  else if (hasUuid s || accountKwSearch s) &&
          accountContextWords.any (fun w => infixOfB w.data s) then "SMART_FULL"
  else if !excludedForStats s && statsKeywords.any (fun w => infixOfB w.data s) then
    "STATISTICAL"
  else if fullScanKeywords.any (fun w => infixOfB w.data s) then "SMART_FULL"
  else if (hasYearToken s || hasMonthToken s) && infixOfB "transaction".data s then
    "SMART_FULL"
  else if analyticalAny s then "VECTOR_SEARCH"
  else "VECTOR_SEARCH"

/-! ## The amount section of `extract_filters_from_query`
(filters.py lines 63-108).

`extract_filters_from_query` fills the nine filter keys in independent
sections; the three amount keys are written only by lines 63-108, from
the lowered question alone.  We embed that section as a function
returning the `(amount_range, amount_above, amount_below)` triple.  The
remaining sections (date, mode, type, account id, person name) do not
read or write the amount keys. -/

/-- Consume `(?:,\d+)*`: comma groups of digits, greedily (fuel-based;
the fuel is the input length). -/
def grabCommaGroups : Nat → List Char → List Char × List Char
  | 0, cs => ([], cs)
  | f + 1, cs =>
    match cs with
    | ',' :: rest =>
      let pd := rest.span Char.isDigit
      if pd.1.isEmpty then ([], cs)
      else
        let more := grabCommaGroups f pd.2
        (',' :: pd.1 ++ more.1, more.2)
    | _ => ([], cs)

/-- Consume one token of the amount regex
`\d+(?:,\d+)*(?:\.\d+)?[kKlL]?` starting at a digit: maximal digits,
comma groups, an optional fractional part, an optional `k`/`l` suffix. -/
def grabToken (cs : List Char) : List Char × List Char :=
  let p1 := cs.span Char.isDigit
  let p2 := grabCommaGroups p1.2.length p1.2
  let p3 : List Char × List Char :=
    match p2.2 with
    | '.' :: rest =>
      let pd := rest.span Char.isDigit
      if pd.1.isEmpty then ([], p2.2) else ('.' :: pd.1, pd.2)
    | _ => ([], p2.2)
  let p4 : List Char × List Char :=
    match p3.2 with
    | c :: rest =>
      if c == 'k' || c == 'K' || c == 'l' || c == 'L' then ([c], rest) else ([], p3.2)
    | _ => ([], p3.2)
  (p1.1 ++ p2.1 ++ p3.1 ++ p4.1, p4.2)

/-- `re.findall` of the number-token regex: scan left to right,
non-overlapping matches (fuel-based; each match consumes at least one
character). -/
def findTokensAux : Nat → List Char → List (List Char)
  | 0, _ => []
  | f + 1, cs =>
    match cs with
    | [] => []
    | c :: rest =>
      if c.isDigit then
        let t := grabToken (c :: rest)
        t.1 :: findTokensAux f t.2
      else findTokensAux f rest

/-- All number tokens of the lowered question. -/
def findNumTokens (s : List Char) : List (List Char) := findTokensAux s.length s

/-- Year-token test `^202[0-9]$` on the de-comma'd token. -/
def isYearTok (cs : List Char) : Bool :=
  match cs with
  | [a, b, c, d] => a == '2' && b == '0' && c == '2' && d.isDigit
  | _ => false

/-- Process one number token: strip commas, lower, drop year-shaped
tokens, convert a `k` suffix to ×1,000 and an `l` suffix to ×100,000,
parse the rest as a float (`none` models both the year skip and the
`except ValueError: continue`). -/
def processToken (tok : List Char) : Option ℚ :=
  let clean := (tok.filter (fun c => c != ',')).map pyLowerC
  if isYearTok clean then none
  else if clean.contains 'k' then parseDecimalScaled (clean.filter (fun c => c != 'k')) 1000
  else if clean.contains 'l' then parseDecimalScaled (clean.filter (fun c => c != 'l')) 100000
  else parseDecimalScaled clean 1

/-- `amounts_processed`: the surviving numeric tokens of the question, in
order. -/
def amountsProcessed (s : List Char) : List ℚ := (findNumTokens s).filterMap processToken

/-- The above-keyword list of the amount section. -/
def aboveWords : List String := ["above", "greater than", "more than", "over", "zyada", "se zyada"]

/-- The below-keyword list of the amount section. -/
def belowWords : List String := ["below", "less than", "under", "kam", "se kam"]

/-- Lines 89-108 of `extract_filters_from_query`: the amount
interpretation over the processed tokens, returning
`(amount_range, amount_above, amount_below)`.  `between` plus at least
two tokens gives an auto-sorted range; otherwise an above keyword takes
the first token as a strict lower bound; otherwise a below keyword takes
it as a strict upper bound. -/
def extract_filters_amount (question : String) :
    Option (ℚ × ℚ) × Option ℚ × Option ℚ :=
  let ql := pyLowerL question
  let amounts := amountsProcessed ql
  if infixOfB "between".data ql && decide (2 ≤ amounts.length) then
    let a := amounts.getD 0 0
    let b := amounts.getD 1 0
    (some (if b < a then (b, a) else (a, b)), none, none)
  else if aboveWords.any (fun w => infixOfB w.data ql) then
    (none, amounts.head?, none)
  else if belowWords.any (fun w => infixOfB w.data ql) then
    (none, none, amounts.head?)
  else (none, none, none)

/-! ## The query cache (cache.py) -/

/-- `settings.CACHE_TTL_MINUTES` (config.py). -/
def CACHE_TTL_MINUTES : Int := 30

/-- A cache entry: the value stored by `cache_query_results`. -/
structure CacheData where
  answer : String
  mode : String
  filtered_docs : List Record
  filters_applied : Option (List String)
  statistics : Option Stats
  timestamp : Int
deriving DecidableEq

/-- The `query_cache` dict, as an insertion-ordered association list with
unique keys (a Python dict). -/
abbrev Cache := List (String × CacheData)

/-- The keys of a Python dict are distinct. -/
def cacheKeysNodup (c : Cache) : Prop := (c.map Prod.fst).Nodup

instance : DecidablePred cacheKeysNodup := fun c =>
  inferInstanceAs (Decidable ((c.map Prod.fst).Nodup))

/-- Dict lookup. -/
def lookupC : Cache → String → Option CacheData
  | [], _ => none
  | kv :: rest, k => if kv.1 == k then some kv.2 else lookupC rest k

/-- `cleanup_expired_cache()`: remove every entry with
`now - timestamp > CACHE_TTL_MINUTES` (the Python loop collects the
expired keys and deletes them; over a dict with unique keys this is the
order-preserving filter below). -/
def cleanup_expired_cache (now : Int) (c : Cache) : Cache :=
  c.filter fun kv => decide (now - kv.2.timestamp ≤ CACHE_TTL_MINUTES)

/-- `del query_cache[key]` (unique keys). -/
def eraseC (c : Cache) (k : String) : Cache := c.filter fun kv => kv.1 != k

/-- `get_cached_query(query_id)`: sweep expired entries, then return the
entry if present and fresh; an expired entry found after the sweep is
deleted and reported as a miss.  The two `datetime.now()` calls of the
source are modelled by the single instant `now`.  Returns the result and
the new cache state. -/
def get_cached_query (now : Int) (c : Cache) (k : String) :
    Option CacheData × Cache :=
  match lookupC (cleanup_expired_cache now c) k with
  | some cd =>
    if now - cd.timestamp ≤ CACHE_TTL_MINUTES then (some cd, cleanup_expired_cache now c)
    else (none, eraseC (cleanup_expired_cache now c) k)
  | none => (none, cleanup_expired_cache now c)

/-- `cache_query_results(...)`: overwrite the entry under the key (keeping
its position) or append a fresh one, timestamped now. -/
def cache_query_results (c : Cache) (k : String) (answer mode : String)
    (filtered_docs : List Record) (filters_applied : Option (List String))
    (statistics : Option Stats) (now : Int) : Cache :=
  let entry : CacheData :=
    { answer := answer, mode := mode, filtered_docs := filtered_docs,
      filters_applied := filters_applied, statistics := statistics, timestamp := now }
  if (c.map Prod.fst).contains k then
    c.map fun kv => if kv.1 == k then (kv.1, entry) else kv
  else c ++ [(k, entry)]

/-! ## The `/prompt` endpoint dispatch (transactions.py lines 208-302) -/

/-- The request schema `PromptRequest` (schemas.py); pydantic enforces
`page ≥ 1` and `1 ≤ page_size ≤ 100`. -/
structure PromptRequest where
  prompt : String
  page : Nat := 1
  page_size : Nat := 20
  show_all : Bool := true
  use_full_data : Option Bool := none
  query_id : Option String := none

/-- The pagination metadata dict. -/
structure Pagination where
  page : Nat
  page_size : Nat
  total_items : Nat
  total_pages : Nat
  has_next : Bool
  has_prev : Bool
deriving DecidableEq

/-- The response schema `TransactionInfo` (schemas.py), produced by
`format_transaction_for_api`. -/
structure TransactionInfo where
  transaction_id : String
  account_number : String
  date : String
  amount : ℚ
  type : String
  mode : String
  balance_after : ℚ
  narration : String
  reference : String
deriving DecidableEq

/-- `float(doc.get("currentBalance", doc.get("balance", 0)))`: the
balance field with fallback, raising `ValueError` on an unparsable
string. -/
def floatBalanceE (d : Record) : Except String ℚ :=
  match d.currentBalance with
  | some v =>
    match pyFloatVal v with
    | some q => .ok q
    | none => .error "ValueError"
  | none =>
    match d.balance with
    | some v =>
      match pyFloatVal v with
      | some q => .ok q
      | none => .error "ValueError"
    | none => .ok 0

/-- `str.replace("TYPE#", "")`: remove every (non-overlapping, leftmost
first) occurrence of the tag (fuel-based; the fuel is the input
length). -/
def stripTypeTagAux : Nat → List Char → List Char
  | 0, cs => cs
  | f + 1, cs =>
    match cs with
    | [] => []
    | c :: rest =>
      if "TYPE#".data.isPrefixOf cs then stripTypeTagAux f (cs.drop 5)
      else c :: stripTypeTagAux f rest

/-- `s.replace("TYPE#", "")`. -/
def stripTypeTag (s : String) : String := ⟨stripTypeTagAux s.data.length s.data⟩

/-- `format_transaction_for_api(doc)` (formatters.py lines 24-36): build
the `TransactionInfo` response object.  The two `float(...)` calls are
evaluated in keyword order — amount first, then balance — and either can
raise `ValueError` on an unvalidated record. -/
def format_transaction_for_api (doc : Record) : Except String TransactionInfo :=
  match floatAmountE doc with
  | .error e => .error e
  | .ok amt =>
    match floatBalanceE doc with
    | .error e => .error e
    | .ok bal =>
      .ok { transaction_id := doc.txnId.getD "N/A",
            account_number := doc.accountId.getD (doc.accountNumber.getD "N/A"),
            date := doc.createdAt.getD "N/A",
            amount := amt,
            type := stripTypeTag (doc.pk_GSI_1.getD "N/A"),
            mode := doc.mode.getD (doc.txnMode.getD "N/A"),
            balance_after := bal,
            narration := doc.narration.getD "N/A",
            reference := doc.reference.getD (doc.txnRef.getD "N/A") }

/-- The response fields the dispatch fills (`RAGResponse`;
`transactions` holds the `format_transaction_for_api` objects of the
served page, as in schemas.py). -/
structure RAGResponse where
  query_id : String
  answer : String
  mode : String
  matching_transactions_count : Nat
  filters_applied : Option (List String) := none
  transactions : Option (List TransactionInfo) := none
  pagination : Option Pagination := none
  statistics : Option Stats := none
deriving DecidableEq

/-- Stable insertion of a keyed record into a descending-sorted list:
the new element goes after every element with a key ≥ its own.  Together
with `sortDocsByAmountDesc` this models Python's stable
`sorted(docs, key=amount, reverse=True)`. -/
def insertDesc (x : ℚ × Record) : List (ℚ × Record) → List (ℚ × Record)
  | [] => [x]
  | y :: ys => if decide (x.1 ≤ y.1) then y :: insertDesc x ys else x :: y :: ys

/-- `sorted(filtered_docs, key=lambda x: float(x.get('amount', 0)),
reverse=True)`: computing a key may raise on an unparsable amount;
otherwise the records are stably sorted by amount descending. -/
def sortDocsByAmountDesc (docs : List Record) : Except String (List Record) :=
  match mapME (fun d => (floatAmountE d).map fun q => (q, d)) docs with
  | .error e => .error e
  | .ok keyed => .ok ((keyed.foldl (fun acc x => insertDesc x acc) []).map Prod.snd)

/-- The pagination block shared by the endpoints (transactions.py lines
113-130, 282-300 and 356-374): sort by amount descending, slice
`[(page-1)*page_size, page*page_size)`, and report the metadata. -/
def paginate (docs : List Record) (page page_size : Nat) :
    Except String (List Record × Pagination) :=
  match sortDocsByAmountDesc docs with
  | .error e => .error e
  | .ok sorted =>
    .ok ((sorted.drop ((page - 1) * page_size)).take page_size,
      { page := page, page_size := page_size, total_items := docs.length,
        total_pages := (docs.length + page_size - 1) / page_size,
        has_next := decide ((page - 1) * page_size + page_size < docs.length),
        has_prev := decide (1 < page) })

/-- The outcome of the `/prompt` dispatch: either a response served
entirely from the cache, or a marker that the full pipeline (mode
detection, filtering, LLM call, cache write) runs, or an HTTP 500 from
an uncaught exception. -/
inductive PromptOutcome where
  | cached (resp : RAGResponse)
  | recompute
  | serverError (msg : String)
deriving DecidableEq

/-- The query id used by the endpoint: the id provided by the request, or
the generated one.  `genId` stands for `generate_query_id` (an MD5
hex digest over the prompt and the canonically-serialized filters — an
external hash library call, passed in as a parameter; no claim depends on
its value). -/
def reqQueryId (genId : String → FilterSet → String) (filters : FilterSet)
    (req : PromptRequest) : String :=
  match req.query_id with
  | some q => q
  | none => genId req.prompt filters

/-- Lines 249-302 of `query_with_prompt`: compute the query id, consult
the cache, and serve pages greater than 1 of a cached query from the
cache entry alone — answer, mode, count, descriptions and statistics come
from the entry, and the transaction list (present when `show_all` is set
and the entry's filtered set is non-empty) is the
`format_transaction_for_api` image of a slice of that set sorted by
amount descending.  An exception from the sort key or from the
formatting (`float` on an unparsable amount or balance) escapes to the
endpoint's catch-all handler as HTTP 500 (`serverError`).  Every other
case (cache miss, or page 1 even on a cache hit) falls through to the
full pipeline, modelled by the `recompute` marker.  `filters` is
`extract_filters_from_query(prompt)`, computed by the caller and used
only for id generation here. -/
def promptDispatch (genId : String → FilterSet → String) (filters : FilterSet)
    (req : PromptRequest) (cache : Cache) (now : Int) : PromptOutcome × Cache :=
  let qid := reqQueryId genId filters req
  let res := get_cached_query now cache qid
  match res.1 with
  | some cd =>
    if 1 < req.page then
      let base : RAGResponse :=
        { query_id := qid, answer := cd.answer, mode := cd.mode,
          matching_transactions_count := cd.filtered_docs.length,
          filters_applied := cd.filters_applied, statistics := cd.statistics }
      if req.show_all && !cd.filtered_docs.isEmpty then
        match paginate cd.filtered_docs req.page req.page_size with
        | .ok pr =>
          match mapME format_transaction_for_api pr.1 with
          | .ok txns =>
            (.cached { base with transactions := some txns, pagination := some pr.2 }, res.2)
          | .error e => (.serverError e, res.2)
        | .error e => (.serverError e, res.2)
      else (.cached base, res.2)
    else (.recompute, res.2)
  | none => (.recompute, res.2)

/-! ## General lemmas about the embedding's combinators -/

/-- When the predicate never raises, exception-aware filtering is plain
filtering. -/
theorem filterE_eq_filter (p : α → Except String Bool) (q : α → Bool) :
    ∀ l : List α, (∀ x ∈ l, p x = .ok (q x)) → filterE p l = .ok (l.filter q) := by
  intro l
  induction l with
  | nil => intro _; rfl
  | cons a as ih =>
    intro h
    have ha := h a (List.mem_cons_self a as)
    have hrest := ih fun x hx => h x (List.mem_cons_of_mem a hx)
    simp [filterE, ha, hrest, List.filter_cons]

/-- Every element of a successful `filterE` output came from the input
and satisfied the predicate. -/
theorem filterE_mem (p : α → Except String Bool) :
    ∀ l r : List α, filterE p l = .ok r → ∀ x ∈ r, x ∈ l ∧ p x = .ok true := by
  intro l
  induction l with
  | nil =>
    intro r hr
    unfold filterE at hr
    cases hr
    intro x hx
    cases hx
  | cons a as ih =>
    intro r hr
    unfold filterE at hr
    cases hp : p a with
    | error e => rw [hp] at hr; cases hr
    | ok b =>
      rw [hp] at hr
      cases hrec : filterE p as with
      | error e => rw [hrec] at hr; cases hr
      | ok r0 =>
        rw [hrec] at hr
        cases hr
        intro x hx
        cases b with
        | true =>
          rcases List.mem_cons.mp (by simpa using hx) with h1 | h1
          · subst h1
            exact ⟨List.mem_cons_self _ _, hp⟩
          · rcases ih r0 hrec x h1 with ⟨h2, h3⟩
            exact ⟨List.mem_cons_of_mem a h2, h3⟩
        | false =>
          rcases ih r0 hrec x (by simpa using hx) with ⟨h2, h3⟩
          exact ⟨List.mem_cons_of_mem a h2, h3⟩

/-- Filtering a list that entirely satisfies the predicate returns it
unchanged. -/
theorem filterE_all_true (p : α → Except String Bool) (l : List α)
    (h : ∀ x ∈ l, p x = .ok true) : filterE p l = .ok l := by
  have h2 := filterE_eq_filter p (fun _ => true) l (by intro x hx; simpa using h x hx)
  simpa using h2

/-- A successful `mapME` preserves length. -/
theorem mapME_length (f : α → Except String β) :
    ∀ l : List α, ∀ r : List β, mapME f l = .ok r → r.length = l.length := by
  intro l
  induction l with
  | nil =>
    intro r hr
    unfold mapME at hr
    cases hr
    rfl
  | cons a as ih =>
    intro r hr
    unfold mapME at hr
    cases hf : f a with
    | error e => rw [hf] at hr; cases hr
    | ok b =>
      rw [hf] at hr
      cases hrec : mapME f as with
      | error e => rw [hrec] at hr; cases hr
      | ok bs =>
        rw [hrec] at hr
        cases hr
        simp [ih bs hrec]

/-- Stable descending insertion grows the length by one. -/
theorem insertDesc_length (x : ℚ × Record) :
    ∀ l : List (ℚ × Record), (insertDesc x l).length = l.length + 1 := by
  intro l
  induction l with
  | nil => rfl
  | cons y ys ih =>
    unfold insertDesc
    by_cases h : x.1 ≤ y.1
    · simp [h, ih]
    · simp [h]

/-- The insertion-sort fold preserves total length. -/
theorem sortFold_length :
    ∀ (l acc : List (ℚ × Record)),
      (l.foldl (fun acc x => insertDesc x acc) acc).length = acc.length + l.length := by
  intro l
  induction l with
  | nil => intro acc; simp
  | cons a as ih =>
    intro acc
    simp only [List.foldl_cons, List.length_cons]
    rw [ih, insertDesc_length]
    omega

/-- A successful amount sort preserves length. -/
theorem sortDocs_length (docs sorted : List Record)
    (h : sortDocsByAmountDesc docs = .ok sorted) : sorted.length = docs.length := by
  unfold sortDocsByAmountDesc at h
  cases hm : mapME (fun d => (floatAmountE d).map fun q => (q, d)) docs with
  | error e => rw [hm] at h; cases h
  | ok keyed =>
    rw [hm] at h
    cases h
    have := mapME_length _ docs keyed hm
    simp [sortFold_length, this]

/-! ## Lemmas about the query cache -/

/-- A successful lookup exhibits a member of the association list. -/
theorem lookupC_mem : ∀ (c : Cache) (k : String) (v : CacheData),
    lookupC c k = some v → (k, v) ∈ c := by
  intro c
  induction c with
  | nil => intro k v h; cases h
  | cons kv rest ih =>
    obtain ⟨k1, v1⟩ := kv
    intro k v h
    unfold lookupC at h
    by_cases hb : (k1 == k) = true
    · rw [if_pos hb] at h
      cases h
      have hk : k1 = k := eq_of_beq hb
      subst hk
      exact List.mem_cons_self _ _
    · rw [if_neg hb] at h
      exact List.mem_cons_of_mem _ (ih k v h)

/-- Lookup of an absent key fails. -/
theorem lookupC_none_of_not_mem : ∀ (c : Cache) (k : String),
    k ∉ c.map Prod.fst → lookupC c k = none := by
  intro c
  induction c with
  | nil => intro k _; rfl
  | cons kv rest ih =>
    obtain ⟨k1, v1⟩ := kv
    intro k h
    simp only [List.map_cons, List.mem_cons] at h
    push_neg at h
    unfold lookupC
    rw [if_neg (by simp; exact fun he => h.1 he.symm)]
    exact ih k h.2

/-- Unfolding lemma for lookup at a cons cell. -/
theorem lookupC_cons (kv : String × CacheData) (rest : Cache) (k : String) :
    lookupC (kv :: rest) k = if (kv.1 == k) = true then some kv.2 else lookupC rest k := rfl

/-- Keys survive filtering only if they were present. -/
theorem keys_filter_sub (p : String × CacheData → Bool) (c : Cache) (k : String)
    (h : k ∈ (c.filter p).map Prod.fst) : k ∈ c.map Prod.fst := by
  rcases List.mem_map.mp h with ⟨kv, hkv, he⟩
  exact List.mem_map.mpr ⟨kv, List.mem_of_mem_filter hkv, he⟩

/-- Lookup through a filter of an association list with distinct keys:
the looked-up entry survives exactly when the filter keeps it. -/
theorem lookupC_filter (p : String × CacheData → Bool) :
    ∀ (c : Cache), cacheKeysNodup c → ∀ (k : String),
      lookupC (c.filter p) k =
        match lookupC c k with
        | some v => if p (k, v) = true then some v else none
        | none => none := by
  intro c
  induction c with
  | nil => intro _ k; rfl
  | cons kv rest ih =>
    obtain ⟨k1, v1⟩ := kv
    intro hnd k
    have hnd1 := hnd
    simp only [cacheKeysNodup, List.map_cons, List.nodup_cons] at hnd1
    obtain ⟨hk1, hnd2⟩ := hnd1
    by_cases hb : (k1 == k) = true
    · have hkk : k1 = k := eq_of_beq hb
      subst hkk
      by_cases hp : p (k1, v1) = true
      · rw [List.filter_cons, if_pos hp, lookupC_cons, if_pos hb, lookupC_cons, if_pos hb]
        simp [hp]
      · rw [List.filter_cons, if_neg hp, lookupC_cons, if_pos hb]
        rw [lookupC_none_of_not_mem _ _ (fun hm => hk1 (keys_filter_sub p rest k1 hm))]
        simp [hp]
    · by_cases hp : p (k1, v1) = true
      · rw [List.filter_cons, if_pos hp, lookupC_cons, if_neg hb, lookupC_cons, if_neg hb]
        exact ih hnd2 k
      · rw [List.filter_cons, if_neg hp, lookupC_cons, if_neg hb]
        exact ih hnd2 k

/-- Every entry of the swept cache is fresh. -/
theorem mem_cleanup_fresh (now : Int) (c : Cache) (kv : String × CacheData)
    (h : kv ∈ cleanup_expired_cache now c) :
    now - kv.2.timestamp ≤ CACHE_TTL_MINUTES := by
  have := List.of_mem_filter h
  simpa using this

/-- A fresh present entry is returned by `get_cached_query`, and the
resulting cache is exactly the swept cache. -/
theorem get_cached_pos (c : Cache) (k : String) (now : Int) (cd : CacheData)
    (h : cacheKeysNodup c) (hl : lookupC c k = some cd)
    (hf : now - cd.timestamp ≤ CACHE_TTL_MINUTES) :
    get_cached_query now c k = (some cd, cleanup_expired_cache now c) := by
  have h1 : lookupC (cleanup_expired_cache now c) k = some cd := by
    unfold cleanup_expired_cache
    rw [lookupC_filter _ c h k, hl]
    simp [hf]
  unfold get_cached_query
  rw [h1]
  simp [hf]

/-- The result of `get_cached_query` is `some` exactly for a present,
fresh entry. -/
theorem get_cached_fst_iff (c : Cache) (k : String) (now : Int)
    (h : cacheKeysNodup c) (cd : CacheData) :
    (get_cached_query now c k).1 = some cd ↔
      lookupC c k = some cd ∧ now - cd.timestamp ≤ CACHE_TTL_MINUTES := by
  constructor
  · intro hg
    cases hl0 : lookupC c k with
    | none =>
      have h1 : lookupC (cleanup_expired_cache now c) k = none := by
        unfold cleanup_expired_cache
        rw [lookupC_filter _ c h k, hl0]
      unfold get_cached_query at hg
      rw [h1] at hg
      exact Option.noConfusion hg
    | some v0 =>
      by_cases hk : now - v0.timestamp ≤ CACHE_TTL_MINUTES
      · rw [get_cached_pos c k now v0 h hl0 hk] at hg
        cases hg
        exact ⟨rfl, hk⟩
      · have h1 : lookupC (cleanup_expired_cache now c) k = none := by
          unfold cleanup_expired_cache
          rw [lookupC_filter _ c h k, hl0]
          simp [hk]
        unfold get_cached_query at hg
        rw [h1] at hg
        exact Option.noConfusion hg
  · intro hg
    rw [get_cached_pos c k now cd h hg.1 hg.2]

/-- After a `get_cached_query`, every entry anywhere in the resulting
cache is fresh (the lazy sweep). -/
theorem get_cached_snd_fresh (c : Cache) (k : String) (now : Int)
    (k2 : String) (cd2 : CacheData)
    (h : lookupC (get_cached_query now c k).2 k2 = some cd2) :
    now - cd2.timestamp ≤ CACHE_TTL_MINUTES := by
  have hmem : (k2, cd2) ∈ (get_cached_query now c k).2 := lookupC_mem _ _ _ h
  have hcl : (k2, cd2) ∈ cleanup_expired_cache now c := by
    unfold get_cached_query at hmem
    cases hl : lookupC (cleanup_expired_cache now c) k with
    | none => rw [hl] at hmem; exact hmem
    | some v =>
      rw [hl] at hmem
      have hm2 : (k2, cd2) ∈
          (if now - v.timestamp ≤ CACHE_TTL_MINUTES then
            (some v, cleanup_expired_cache now c)
          else (none, eraseC (cleanup_expired_cache now c) k)).2 := hmem
      by_cases hf : now - v.timestamp ≤ CACHE_TTL_MINUTES
      · rw [if_pos hf] at hm2
        exact hm2
      · rw [if_neg hf] at hm2
        exact List.mem_of_mem_filter hm2
  exact mem_cleanup_fresh now c _ hcl

/-! ## Stage lemmas for `apply_filters` -/

/-- A list already inside a filter's output is a fixed point of that
filter. -/
theorem filter_fix (p : Record → Bool) (docs R : List Record)
    (hsub : ∀ x ∈ R, x ∈ docs.filter p) : R.filter p = R :=
  List.filter_eq_self.mpr fun x hx => (List.mem_filter.mp (hsub x hx)).2

/-- Output records of the date stage come from its input. -/
theorem dateStage_sub (odf : Option DateFilter) (docs : List Record)
    (fd : List Record × List String) (h : dateStage docs odf = .ok fd) :
    ∀ x ∈ fd.1, x ∈ docs := by
  cases odf with
  | none => cases h; exact fun x hx => hx
  | some df =>
    simp only [dateStage] at h
    by_cases ha : (df.month.isSome || df.year.isSome) = true
    · rw [if_pos ha] at h
      cases hd : dateDesc df with
      | error e => rw [hd] at h; cases h
      | ok ds =>
        rw [hd] at h
        cases h
        exact fun x hx => List.mem_of_mem_filter hx
    · rw [if_neg ha] at h
      cases h
      exact fun x hx => hx

/-- Re-running the date stage on a subset of its own output filters
nothing further and reproduces the same descriptions. -/
theorem dateStage_stable (odf : Option DateFilter) (docs R : List Record)
    (fd : List Record × List String) (h : dateStage docs odf = .ok fd)
    (hsub : ∀ x ∈ R, x ∈ fd.1) : dateStage R odf = .ok (R, fd.2) := by
  cases odf with
  | none => cases h; rfl
  | some df =>
    simp only [dateStage] at h ⊢
    by_cases ha : (df.month.isSome || df.year.isSome) = true
    · simp only [if_pos ha] at h ⊢
      cases hd : dateDesc df with
      | error e => rw [hd] at h; cases h
      | ok ds =>
        rw [hd] at h
        cases h
        rw [filter_fix (datePred df) docs R hsub]
    · simp only [if_neg ha] at h ⊢
      cases h
      rfl

/-- Output records of the mode stage come from its input. -/
theorem modeStage_sub (om : Option String) (docs : List Record) :
    ∀ x ∈ (modeStage docs om).1, x ∈ docs := by
  cases om with
  | none => exact fun x hx => hx
  | some m =>
    simp only [modeStage]
    by_cases hm : m.isEmpty = true
    · simp only [if_pos hm]; exact fun x hx => hx
    · simp only [if_neg hm]; exact fun x hx => List.mem_of_mem_filter hx

/-- Re-running the mode stage on a subset of its own output is the
identity, with the same description. -/
theorem modeStage_stable (om : Option String) (docs R : List Record)
    (hsub : ∀ x ∈ R, x ∈ (modeStage docs om).1) :
    modeStage R om = (R, (modeStage docs om).2) := by
  cases om with
  | none => rfl
  | some m =>
    simp only [modeStage] at hsub ⊢
    by_cases hm : m.isEmpty = true
    · simp only [if_pos hm]
    · simp only [if_neg hm] at hsub ⊢
      rw [filter_fix _ docs R hsub]

/-- Output records of the type stage come from its input. -/
theorem typeStage_sub (ot : Option String) (docs : List Record) :
    ∀ x ∈ (typeStage docs ot).1, x ∈ docs := by
  cases ot with
  | none => exact fun x hx => hx
  | some t =>
    simp only [typeStage]
    by_cases hm : t.isEmpty = true
    · simp only [if_pos hm]; exact fun x hx => hx
    · simp only [if_neg hm]; exact fun x hx => List.mem_of_mem_filter hx

/-- Re-running the type stage on a subset of its own output is the
identity, with the same description. -/
theorem typeStage_stable (ot : Option String) (docs R : List Record)
    (hsub : ∀ x ∈ R, x ∈ (typeStage docs ot).1) :
    typeStage R ot = (R, (typeStage docs ot).2) := by
  cases ot with
  | none => rfl
  | some t =>
    simp only [typeStage] at hsub ⊢
    by_cases hm : t.isEmpty = true
    · simp only [if_pos hm]
    · simp only [if_neg hm] at hsub ⊢
      rw [filter_fix _ docs R hsub]

/-- Output records of the account stage come from its input. -/
theorem accountStage_sub (oa : Option String) (docs : List Record) :
    ∀ x ∈ (accountStage docs oa).1, x ∈ docs := by
  cases oa with
  | none => exact fun x hx => hx
  | some a =>
    simp only [accountStage]
    by_cases hm : a.isEmpty = true
    · simp only [if_pos hm]; exact fun x hx => hx
    · simp only [if_neg hm]; exact fun x hx => List.mem_of_mem_filter hx

/-- Re-running the account stage on a subset of its own output is the
identity, with the same description. -/
theorem accountStage_stable (oa : Option String) (docs R : List Record)
    (hsub : ∀ x ∈ R, x ∈ (accountStage docs oa).1) :
    accountStage R oa = (R, (accountStage docs oa).2) := by
  cases oa with
  | none => rfl
  | some a =>
    simp only [accountStage] at hsub ⊢
    by_cases hm : a.isEmpty = true
    · simp only [if_pos hm]
    · simp only [if_neg hm] at hsub ⊢
      rw [filter_fix _ docs R hsub]

/-- Output records of the person stage come from its input. -/
theorem personStage_sub (onm : Option String) (strict : Bool) (docs : List Record) :
    ∀ x ∈ (personStage docs onm strict).1, x ∈ docs := by
  cases onm with
  | none => exact fun x hx => hx
  | some n =>
    simp only [personStage]
    by_cases hm : n.isEmpty = true
    · simp only [if_pos hm]; exact fun x hx => hx
    · simp only [if_neg hm]
      by_cases hs : strict = true
      · simp only [if_pos hs]; exact fun x hx => List.mem_of_mem_filter hx
      · simp only [if_neg hs]; exact fun x hx => List.mem_of_mem_filter hx

/-- Re-running the person stage on a subset of its own output is the
identity, with the same description. -/
theorem personStage_stable (onm : Option String) (strict : Bool) (docs R : List Record)
    (hsub : ∀ x ∈ R, x ∈ (personStage docs onm strict).1) :
    personStage R onm strict = (R, (personStage docs onm strict).2) := by
  cases onm with
  | none => rfl
  | some n =>
    simp only [personStage] at hsub ⊢
    by_cases hm : n.isEmpty = true
    · simp only [if_pos hm]
    · simp only [if_neg hm] at hsub ⊢
      by_cases hs : strict = true
      · simp only [if_pos hs] at hsub ⊢
        rw [filter_fix _ docs R hsub]
      · simp only [if_neg hs] at hsub ⊢
        rw [filter_fix _ docs R hsub]

/-- Output records of the below branch come from its input. -/
theorem amountBelowStage_sub (ob : Option ℚ) (docs : List Record)
    (fd : List Record × List String) (h : amountBelowStage docs ob = .ok fd) :
    ∀ x ∈ fd.1, x ∈ docs := by
  cases ob with
  | none => cases h; exact fun x hx => hx
  | some t =>
    simp only [amountBelowStage] at h
    by_cases hz : (t == 0) = true
    · rw [if_pos hz] at h
      cases h
      exact fun x hx => hx
    · rw [if_neg hz] at h
      cases hf : filterE (fun d => (floatAmountE d).map fun q => decide (q < t)) docs with
      | error e => rw [hf] at h; cases h
      | ok r =>
        rw [hf] at h
        cases h
        exact fun x hx => (filterE_mem _ docs r hf x hx).1

/-- Re-running the below branch on a subset of its own output is the
identity, with the same description. -/
theorem amountBelowStage_stable (ob : Option ℚ) (docs R : List Record)
    (fd : List Record × List String) (h : amountBelowStage docs ob = .ok fd)
    (hsub : ∀ x ∈ R, x ∈ fd.1) : amountBelowStage R ob = .ok (R, fd.2) := by
  cases ob with
  | none => cases h; rfl
  | some t =>
    simp only [amountBelowStage] at h ⊢
    by_cases hz : (t == 0) = true
    · simp only [if_pos hz] at h ⊢
      cases h
      rfl
    · simp only [if_neg hz] at h ⊢
      cases hf : filterE (fun d => (floatAmountE d).map fun q => decide (q < t)) docs with
      | error e => rw [hf] at h; cases h
      | ok r =>
        rw [hf] at h
        cases h
        rw [filterE_all_true _ R fun x hx => (filterE_mem _ docs r hf x (hsub x hx)).2]

/-- Output records of the amount stage come from its input. -/
theorem amountStage_sub (F : FilterSet) (docs : List Record)
    (fd : List Record × List String) (h : amountStage docs F = .ok fd) :
    ∀ x ∈ fd.1, x ∈ docs := by
  obtain ⟨oab, obl, orng, odf, om, ot, oacc, opn, str⟩ := F
  cases orng with
  | some mm =>
    unfold amountStage at h
    simp only [] at h
    cases hf : filterE (fun d => (floatAmountE d).map fun q =>
        decide (mm.1 ≤ q) && decide (q ≤ mm.2)) docs with
    | error e => rw [hf] at h; cases h
    | ok r =>
      rw [hf] at h
      cases h
      exact fun x hx => (filterE_mem _ docs r hf x hx).1
  | none =>
    cases oab with
    | some t =>
      unfold amountStage at h
      simp only [] at h
      by_cases hz : (t == 0) = true
      · rw [if_pos hz] at h
        exact amountBelowStage_sub _ docs fd h
      · rw [if_neg hz] at h
        cases hf : filterE (fun d => (floatAmountE d).map fun q => decide (t < q)) docs with
        | error e => rw [hf] at h; cases h
        | ok r =>
          rw [hf] at h
          cases h
          exact fun x hx => (filterE_mem _ docs r hf x hx).1
    | none =>
      unfold amountStage at h
      simp only [] at h
      exact amountBelowStage_sub _ docs fd h

/-- Re-running the amount stage on a subset of its own output is the
identity, with the same description. -/
theorem amountStage_stable (F : FilterSet) (docs R : List Record)
    (fd : List Record × List String) (h : amountStage docs F = .ok fd)
    (hsub : ∀ x ∈ R, x ∈ fd.1) : amountStage R F = .ok (R, fd.2) := by
  obtain ⟨oab, obl, orng, odf, om, ot, oacc, opn, str⟩ := F
  cases orng with
  | some mm =>
    unfold amountStage at h ⊢
    simp only [] at h ⊢
    cases hf : filterE (fun d => (floatAmountE d).map fun q =>
        decide (mm.1 ≤ q) && decide (q ≤ mm.2)) docs with
    | error e => rw [hf] at h; cases h
    | ok r =>
      rw [hf] at h
      cases h
      rw [filterE_all_true _ R fun x hx => (filterE_mem _ docs r hf x (hsub x hx)).2]
  | none =>
    cases oab with
    | some t =>
      unfold amountStage at h ⊢
      simp only [] at h ⊢
      by_cases hz : (t == 0) = true
      · simp only [if_pos hz] at h ⊢
        exact amountBelowStage_stable _ docs R fd h hsub
      · simp only [if_neg hz] at h ⊢
        cases hf : filterE (fun d => (floatAmountE d).map fun q => decide (t < q)) docs with
        | error e => rw [hf] at h; cases h
        | ok r =>
          rw [hf] at h
          cases h
          rw [filterE_all_true _ R fun x hx => (filterE_mem _ docs r hf x (hsub x hx)).2]
    | none =>
      unfold amountStage at h ⊢
      simp only [] at h ⊢
      exact amountBelowStage_stable _ docs R fd h hsub

/-- Decomposition of a successful `apply_filters` run into its stage
equations. -/
theorem apply_filters_decomp (docs : List Record) (F : FilterSet)
    (R : List Record) (ds : List String)
    (h : apply_filters docs F = .ok (R, ds)) :
    ∃ fd1 fd4 : List Record × List String,
      dateStage docs F.date_filter = .ok fd1 ∧
      amountStage (typeStage (modeStage fd1.1 F.mode).1 F.type).1 F = .ok fd4 ∧
      R = (personStage (accountStage fd4.1 F.account_id).1
            F.person_name F.strict_name_match).1 ∧
      ds = fd1.2 ++ (modeStage fd1.1 F.mode).2 ++
           (typeStage (modeStage fd1.1 F.mode).1 F.type).2 ++ fd4.2 ++
           (accountStage fd4.1 F.account_id).2 ++
           (personStage (accountStage fd4.1 F.account_id).1
             F.person_name F.strict_name_match).2 := by
  unfold apply_filters at h
  cases h1 : dateStage docs F.date_filter with
  | error e => rw [h1] at h; cases h
  | ok fd1 =>
    rw [h1] at h
    simp only [] at h
    cases h4 : amountStage (typeStage (modeStage fd1.1 F.mode).1 F.type).1 F with
    | error e => rw [h4] at h; cases h
    | ok fd4 =>
      rw [h4] at h
      simp only [] at h
      cases h
      exact ⟨fd1, fd4, rfl, h4, rfl, rfl⟩

/-- Reassembly of `apply_filters` from its stage equations. -/
theorem apply_filters_build (docs : List Record) (F : FilterSet)
    (fd1 fd4 : List Record × List String)
    (h1 : dateStage docs F.date_filter = .ok fd1)
    (h4 : amountStage (typeStage (modeStage fd1.1 F.mode).1 F.type).1 F = .ok fd4) :
    apply_filters docs F =
      .ok ((personStage (accountStage fd4.1 F.account_id).1
             F.person_name F.strict_name_match).1,
        fd1.2 ++ (modeStage fd1.1 F.mode).2 ++
        (typeStage (modeStage fd1.1 F.mode).1 F.type).2 ++ fd4.2 ++
        (accountStage fd4.1 F.account_id).2 ++
        (personStage (accountStage fd4.1 F.account_id).1
          F.person_name F.strict_name_match).2) := by
  unfold apply_filters
  rw [h1]
  simp only []
  rw [h4]

/-- Idempotence of `apply_filters`: re-running the same filters on a
successful run's output reproduces that output exactly. -/
theorem apply_filters_idem_aux (docs : List Record) (F : FilterSet)
    (R : List Record) (ds : List String)
    (h : apply_filters docs F = .ok (R, ds)) :
    apply_filters R F = .ok (R, ds) := by
  obtain ⟨fd1, fd4, h1, h4, hR, hds⟩ := apply_filters_decomp docs F R ds h
  have sub5 : ∀ x ∈ R, x ∈ (accountStage fd4.1 F.account_id).1 := by
    intro x hx
    rw [hR] at hx
    exact personStage_sub _ _ _ x hx
  have sub4 : ∀ x ∈ R, x ∈ fd4.1 := fun x hx => accountStage_sub _ _ x (sub5 x hx)
  have sub3 : ∀ x ∈ R, x ∈ (typeStage (modeStage fd1.1 F.mode).1 F.type).1 :=
    fun x hx => amountStage_sub F _ fd4 h4 x (sub4 x hx)
  have sub2 : ∀ x ∈ R, x ∈ (modeStage fd1.1 F.mode).1 :=
    fun x hx => typeStage_sub _ _ x (sub3 x hx)
  have sub1 : ∀ x ∈ R, x ∈ fd1.1 := fun x hx => modeStage_sub _ _ x (sub2 x hx)
  have s1 : dateStage R F.date_filter = .ok (R, fd1.2) :=
    dateStage_stable _ docs R fd1 h1 sub1
  have s2 : modeStage R F.mode = (R, (modeStage fd1.1 F.mode).2) :=
    modeStage_stable _ fd1.1 R sub2
  have s3 : typeStage R F.type = (R, (typeStage (modeStage fd1.1 F.mode).1 F.type).2) :=
    typeStage_stable _ _ R sub3
  have s4 : amountStage R F = .ok (R, fd4.2) := amountStage_stable F _ R fd4 h4 sub4
  have s5 : accountStage R F.account_id = (R, (accountStage fd4.1 F.account_id).2) :=
    accountStage_stable _ fd4.1 R sub5
  have s6 : personStage R F.person_name F.strict_name_match =
      (R, (personStage (accountStage fd4.1 F.account_id).1
            F.person_name F.strict_name_match).2) :=
    personStage_stable _ _ _ R (fun x hx => by rw [hR] at hx; exact hx)
  have h4x : amountStage (typeStage (modeStage R F.mode).1 F.type).1 F = .ok (R, fd4.2) := by
    rw [s2]
    show amountStage (typeStage R F.type).1 F = .ok (R, fd4.2)
    rw [s3]
    show amountStage R F = .ok (R, fd4.2)
    exact s4
  have hbuild := apply_filters_build R F (R, fd1.2) (R, fd4.2) s1 h4x
  simp only [s2, s3, s5, s6] at hbuild
  rw [hbuild, hds]

/-- Evaluation of `apply_filters` with only a (non-zero) strict lower
amount bound, over records whose amounts all parse. -/
theorem apply_filters_above_eval (docs : List Record) (t : ℚ) (ht : 0 < t)
    (hp : ∀ d ∈ docs, floatAmountE d = Except.ok (amtVal d)) :
    apply_filters docs { amount_above := some t } =
      .ok (docs.filter fun d => decide (t < amtVal d),
           ["Amount above: " ++ ratRepr t]) := by
  have hz : (t == 0) = false := beq_eq_false_iff_ne.mpr (ne_of_gt ht)
  have hfe : filterE (fun d => (floatAmountE d).map fun q => decide (t < q)) docs =
      .ok (docs.filter fun d => decide (t < amtVal d)) := by
    apply filterE_eq_filter
    intro x hx
    rw [hp x hx]
    rfl
  have h4 : amountStage docs { amount_above := some t } =
      .ok (docs.filter (fun d => decide (t < amtVal d)), ["Amount above: " ++ ratRepr t]) := by
    unfold amountStage
    simp only [hz, Bool.false_eq_true, if_false, hfe]
  have hb := apply_filters_build docs { amount_above := some t } (docs, [])
    (docs.filter (fun d => decide (t < amtVal d)), ["Amount above: " ++ ratRepr t]) rfl h4
  simpa [modeStage, typeStage, accountStage, personStage] using hb

/-- Evaluation of `apply_filters` with only a (non-zero) strict upper
amount bound, over records whose amounts all parse. -/
theorem apply_filters_below_eval (docs : List Record) (t : ℚ) (ht : 0 < t)
    (hp : ∀ d ∈ docs, floatAmountE d = Except.ok (amtVal d)) :
    apply_filters docs { amount_below := some t } =
      .ok (docs.filter fun d => decide (amtVal d < t),
           ["Amount below: " ++ ratRepr t]) := by
  have hz : (t == 0) = false := beq_eq_false_iff_ne.mpr (ne_of_gt ht)
  have hfe : filterE (fun d => (floatAmountE d).map fun q => decide (q < t)) docs =
      .ok (docs.filter fun d => decide (amtVal d < t)) := by
    apply filterE_eq_filter
    intro x hx
    rw [hp x hx]
    rfl
  have h4 : amountStage docs { amount_below := some t } =
      .ok (docs.filter (fun d => decide (amtVal d < t)), ["Amount below: " ++ ratRepr t]) := by
    unfold amountStage
    simp only []
    unfold amountBelowStage
    simp only [hz, Bool.false_eq_true, if_false, hfe]
  have hb := apply_filters_build docs { amount_below := some t } (docs, [])
    (docs.filter (fun d => decide (amtVal d < t)), ["Amount below: " ++ ratRepr t]) rfl h4
  simpa [modeStage, typeStage, accountStage, personStage] using hb

/-- Unfolding lemma for `paginate` when the sort succeeds. -/
theorem paginate_ok (docs sorted : List Record) (page size : Nat)
    (hsort : sortDocsByAmountDesc docs = .ok sorted) :
    paginate docs page size =
      .ok ((sorted.drop ((page - 1) * size)).take size,
        { page := page, page_size := size, total_items := docs.length,
          total_pages := (docs.length + size - 1) / size,
          has_next := decide ((page - 1) * size + size < docs.length),
          has_prev := decide (1 < page) }) := by
  unfold paginate
  rw [hsort]

/-- `paginate` propagates a sort-key exception. -/
theorem paginate_err (docs : List Record) (page size : Nat) (e : String)
    (h : sortDocsByAmountDesc docs = .error e) : paginate docs page size = .error e := by
  unfold paginate
  rw [h]

/-- Tiling: slicing a list into `ceil(length / size)` consecutive pages
of `size` elements reassembles the list exactly (no gaps, no
overlaps). -/
theorem range_slices_tile {α : Type} (size : Nat) (hs : 1 ≤ size) :
    ∀ (n : Nat) (l : List α), l.length ≤ n →
      ((List.range ((l.length + size - 1) / size)).map
        fun i => (l.drop (i * size)).take size).flatten = l := by
  intro n
  induction n with
  | zero =>
    intro l hl
    have hnil : l = [] := List.eq_nil_of_length_eq_zero (Nat.le_zero.mp hl)
    subst hnil
    have h0 : (([] : List α).length + size - 1) / size = 0 := by
      simp only [List.length_nil]
      exact Nat.div_eq_of_lt (by omega)
    rw [h0]
    rfl
  | succ n ih =>
    intro l hl
    cases l with
    | nil =>
      have h0 : (([] : List α).length + size - 1) / size = 0 := by
        simp only [List.length_nil]
        exact Nat.div_eq_of_lt (by omega)
      rw [h0]
      rfl
    | cons a as =>
      have hlen : 1 ≤ (a :: as).length := by simp
      have htp : ((a :: as).length + size - 1) / size
          = (((a :: as).drop size).length + size - 1) / size + 1 := by
        rw [List.length_drop]
        have hre : (a :: as).length + size - 1 = ((a :: as).length - 1) + size := by omega
        rw [hre, Nat.add_div_right _ (by omega : 0 < size)]
        congr 1
        by_cases hc : (a :: as).length ≤ size
        · have e1 : (a :: as).length - size = 0 := by omega
          rw [e1, Nat.div_eq_of_lt (by omega), Nat.div_eq_of_lt (by omega)]
        · have e2 : (a :: as).length - size + size - 1
              = ((a :: as).length - size - 1) + size := by omega
          rw [e2, Nat.add_div_right _ (by omega : 0 < size)]
          rw [Nat.div_eq ((a :: as).length - 1) size]
          rw [if_pos ⟨by omega, by omega⟩]
          have e3 : (a :: as).length - 1 - size = (a :: as).length - size - 1 := by omega
          rw [e3]
      rw [htp, List.range_succ_eq_map]
      simp only [List.map_cons, List.map_map, List.flatten_cons, Nat.zero_mul,
        List.drop_zero]
      have hmc : List.map ((fun i => ((a :: as).drop (i * size)).take size) ∘ Nat.succ)
            (List.range ((((a :: as).drop size).length + size - 1) / size))
          = List.map (fun i => (((a :: as).drop size).drop (i * size)).take size)
            (List.range ((((a :: as).drop size).length + size - 1) / size)) := by
        apply List.map_congr_left
        intro i _
        simp only [Function.comp]
        rw [List.drop_drop, Nat.succ_mul, Nat.add_comm (i * size) size]
      rw [hmc, ih ((a :: as).drop size) (by rw [List.length_drop]; omega)]
      exact List.take_append_drop size (a :: as)

/-! ## Claim theorems -/

/-- Claim C2, counterexample: the claim asserts the above-filter keeps
exactly the records with amount strictly greater than the threshold for
every threshold t ≥ 0.  At t = 0 the code's truthiness guard
(`filters.get('amount_above')`) is falsy, the filter is skipped entirely
(no description emitted), and a record of amount 0 — which t < amount
fails for — is kept. -/
theorem c2_counterexample :
    apply_filters [{ amount := some (.num 0) }] { amount_above := some (0 : ℚ) } =
      .ok ([{ amount := some (.num 0) }], []) ∧
    ¬ ((0 : ℚ) < 0) := by
  exact ⟨by decide, by decide⟩

/-- Claim C2 (amended): for every strictly positive threshold t and every
record set whose amounts parse (or are absent), `apply_filters` with only
`amount_above = t` keeps exactly the records with amount strictly greater
than t, and with only `amount_below = t` keeps exactly those with amount
strictly less than t — both bounds exclusive.  (At t = 0 the filter is
skipped — see the counterexample; an unparsable amount raises — see
C3.) -/
theorem c2_amount_bounds_strict (docs : List Record) (t : ℚ) (ht : 0 < t)
    (hp : ∀ d ∈ docs, floatAmountE d = Except.ok (amtVal d)) :
    apply_filters docs { amount_above := some t } =
      .ok (docs.filter fun d => decide (t < amtVal d),
           ["Amount above: " ++ ratRepr t]) ∧
    apply_filters docs { amount_below := some t } =
      .ok (docs.filter fun d => decide (amtVal d < t),
           ["Amount below: " ++ ratRepr t]) :=
  ⟨apply_filters_above_eval docs t ht hp, apply_filters_below_eval docs t ht hp⟩

/-- Witness for C2 at t = 5 over two records of amounts 10 and 3. -/
theorem c2_amount_bounds_strict_witness :
    (0 : ℚ) < 5 ∧
    (∀ d ∈ ([{ amount := some (.num 10) }, { amount := some (.num 3) }] : List Record),
      floatAmountE d = Except.ok (amtVal d)) ∧
    (apply_filters [{ amount := some (.num 10) }, { amount := some (.num 3) }]
        { amount_above := some (5 : ℚ) } =
      .ok (([{ amount := some (.num 10) }, { amount := some (.num 3) }] : List Record).filter
             fun d => decide ((5 : ℚ) < amtVal d),
           ["Amount above: " ++ ratRepr 5]) ∧
     apply_filters [{ amount := some (.num 10) }, { amount := some (.num 3) }]
        { amount_below := some (5 : ℚ) } =
      .ok (([{ amount := some (.num 10) }, { amount := some (.num 3) }] : List Record).filter
             fun d => decide (amtVal d < (5 : ℚ)),
           ["Amount below: " ++ ratRepr 5])) :=
  ⟨by decide, by decide,
   c2_amount_bounds_strict [{ amount := some (.num 10) }, { amount := some (.num 3) }]
     5 (by decide) (by decide)⟩

/-- Claim C3 (code bug): `apply_filters` is not total — with an active
amount filter, `float(d.get('amount', 0))` raises `ValueError` on a
record whose amount is a non-numeric string, instead of degrading the
record to a non-match as the error-handling design prescribes (the date
stage, by contrast, wraps its parse in try/except). -/
theorem c3_unparsable_amount_raises :
    apply_filters [{ amount := some (.str "abc") }] { amount_above := some (5 : ℚ) } =
      .error "ValueError" := by
  decide

/-- Claim C6: applying the Filter Applicator to its own output is a fixed
point — re-running `apply_filters` with the same Filter Set on the
filtered records of a successful run returns exactly the same record
sequence (and the same descriptions). -/
theorem c6_apply_filters_idempotent (docs : List Record) (F : FilterSet)
    (R : List Record) (ds : List String)
    (h : apply_filters docs F = .ok (R, ds)) :
    apply_filters R F = .ok (R, ds) :=
  apply_filters_idem_aux docs F R ds h

/-- Witness for C6 on a two-record set with an above-filter. -/
theorem c6_apply_filters_idempotent_witness :
    apply_filters [{ amount := some (.num 10) }, { amount := some (.num 3) }]
      { amount_above := some (5 : ℚ) } =
      .ok ([{ amount := some (.num 10) }], ["Amount above: 5"]) ∧
    apply_filters [{ amount := some (.num 10) }] { amount_above := some (5 : ℚ) } =
      .ok ([{ amount := some (.num 10) }], ["Amount above: 5"]) :=
  ⟨by decide,
   c6_apply_filters_idempotent
     [{ amount := some (.num 10) }, { amount := some (.num 3) }]
     { amount_above := some (5 : ℚ) }
     [{ amount := some (.num 10) }] ["Amount above: 5"] (by decide)⟩

/-- Claim C5: when `between` with at least two surviving numeric tokens,
an above-keyword and a below-keyword are all present, the extractor
produces only `amount_range`, auto-sorted low ≤ high, leaving
`amount_above` and `amount_below` unset. -/
theorem c5_between_wins (question : String)
    (hb : infixOfB "between".data (pyLowerL question) = true)
    (hn : 2 ≤ (amountsProcessed (pyLowerL question)).length)
    (ha : aboveWords.any (fun w => infixOfB w.data (pyLowerL question)) = true)
    (hbl : belowWords.any (fun w => infixOfB w.data (pyLowerL question)) = true) :
    ∃ lo hi : ℚ, extract_filters_amount question = (some (lo, hi), none, none) ∧ lo ≤ hi := by
  have hd : decide (2 ≤ (amountsProcessed (pyLowerL question)).length) = true :=
    decide_eq_true hn
  unfold extract_filters_amount
  simp only [hb, hd, Bool.and_self, if_true]
  by_cases hab : (amountsProcessed (pyLowerL question)).getD 1 0 <
      (amountsProcessed (pyLowerL question)).getD 0 0
  · refine ⟨_, _, ?_, le_of_lt hab⟩
    rw [if_pos hab]
  · refine ⟨_, _, ?_, not_lt.mp hab⟩
    rw [if_neg hab]

/-- Witness for C5 on "between 5k and 2k zyada kam". -/
theorem c5_between_wins_witness :
    infixOfB "between".data (pyLowerL "between 5k and 2k zyada kam") = true ∧
    2 ≤ (amountsProcessed (pyLowerL "between 5k and 2k zyada kam")).length ∧
    (aboveWords.any fun w => infixOfB w.data (pyLowerL "between 5k and 2k zyada kam")) = true ∧
    (belowWords.any fun w => infixOfB w.data (pyLowerL "between 5k and 2k zyada kam")) = true ∧
    (∃ lo hi : ℚ, extract_filters_amount "between 5k and 2k zyada kam" =
        (some (lo, hi), none, none) ∧ lo ≤ hi) :=
  ⟨by decide, by decide, by decide, by decide,
   c5_between_wins "between 5k and 2k zyada kam" (by decide) (by decide) (by decide) (by decide)⟩

/-- Claim C8: a prompt matching both the priority-1 counting regex family
and the priority-6 analytical keyword family is classified VECTOR_SEARCH
via the counting rule — the cascade evaluates priority 1 first and
returns without reaching priority 6. -/
theorem c8_counting_beats_analytical (question : String)
    (hc : countingAny (pyLowerL question) = true)
    (ha : analyticalAny (pyLowerL question) = true) :
    detect_query_mode question = "VECTOR_SEARCH" := by
  unfold detect_query_mode
  simp only [hc, if_true]

/-- Witness for C8 on "how many transactions" (counting via pattern 1,
analytical via the substring keyword `how`). -/
theorem c8_counting_beats_analytical_witness :
    countingAny (pyLowerL "how many transactions") = true ∧
    analyticalAny (pyLowerL "how many transactions") = true ∧
    detect_query_mode "how many transactions" = "VECTOR_SEARCH" :=
  ⟨by decide, by decide,
   c8_counting_beats_analytical "how many transactions" (by decide) (by decide)⟩

/-- Claim C9: whenever the filtered result is empty — in particular for
an empty input record set — the Statistics Calculator returns the
all-zero statistics object and raises no error. -/
theorem c9_empty_stats_zero (docs : List Record) (F : FilterSet) (ds : List String)
    (h : apply_filters docs F = .ok ([], ds)) :
    calculate_statistics docs F =
      .ok { count := 0, total := 0, average := 0, max := 0, min := 0 } := by
  unfold calculate_statistics
  rw [h]
  rfl

/-- Witness for C9 on the empty record set with empty filters. -/
theorem c9_empty_stats_zero_witness :
    apply_filters [] {} = .ok ([], []) ∧
    calculate_statistics [] {} =
      .ok { count := 0, total := 0, average := 0, max := 0, min := 0 } :=
  ⟨by decide, c9_empty_stats_zero [] {} [] (by decide)⟩

/-- Claim C4: over a cache with distinct keys, `get_cached_query` returns
a stored entry exactly when it exists and `now − insertion ≤ TTL`
(otherwise it reports a miss, the expired entry having been deleted), and
after any get completes no entry older than the TTL remains anywhere in
the store — every get sweeps all expired entries.  In particular an entry
inserted at t0 is still returned at any access with now − t0 ≤ TTL and is
gone at the first access past t0 + TTL. -/
theorem c4_cache_ttl_get (c : Cache) (k : String) (now : Int)
    (h : cacheKeysNodup c) :
    (∀ e : CacheData, (get_cached_query now c k).1 = some e ↔
        lookupC c k = some e ∧ now - e.timestamp ≤ CACHE_TTL_MINUTES) ∧
    (∀ (k2 : String) (e2 : CacheData),
        lookupC (get_cached_query now c k).2 k2 = some e2 →
        now - e2.timestamp ≤ CACHE_TTL_MINUTES) :=
  ⟨fun e => get_cached_fst_iff c k now h e,
   fun k2 e2 h2 => get_cached_snd_fresh c k now k2 e2 h2⟩

/-- Witness for C4: a two-entry cache read at minute 31, with one entry
inserted at minute 5 (fresh) and one at minute 0 (expired). -/
theorem c4_cache_ttl_get_witness :
    cacheKeysNodup
      [("a", { answer := "x", mode := "SMART_FULL", filtered_docs := [],
               filters_applied := none, statistics := none, timestamp := 5 }),
       ("b", { answer := "y", mode := "SMART_FULL", filtered_docs := [],
               filters_applied := none, statistics := none, timestamp := 0 })] ∧
    ((∀ e : CacheData,
        (get_cached_query 31
          [("a", { answer := "x", mode := "SMART_FULL", filtered_docs := [],
                   filters_applied := none, statistics := none, timestamp := 5 }),
           ("b", { answer := "y", mode := "SMART_FULL", filtered_docs := [],
                   filters_applied := none, statistics := none, timestamp := 0 })] "a").1 =
          some e ↔
        lookupC
          [("a", { answer := "x", mode := "SMART_FULL", filtered_docs := [],
                   filters_applied := none, statistics := none, timestamp := 5 }),
           ("b", { answer := "y", mode := "SMART_FULL", filtered_docs := [],
                   filters_applied := none, statistics := none, timestamp := 0 })] "a" =
          some e ∧ 31 - e.timestamp ≤ CACHE_TTL_MINUTES) ∧
     (∀ (k2 : String) (e2 : CacheData),
        lookupC
          (get_cached_query 31
            [("a", { answer := "x", mode := "SMART_FULL", filtered_docs := [],
                     filters_applied := none, statistics := none, timestamp := 5 }),
             ("b", { answer := "y", mode := "SMART_FULL", filtered_docs := [],
                     filters_applied := none, statistics := none, timestamp := 0 })] "a").2
          k2 = some e2 →
        31 - e2.timestamp ≤ CACHE_TTL_MINUTES)) :=
  ⟨by decide,
   c4_cache_ttl_get
     [("a", { answer := "x", mode := "SMART_FULL", filtered_docs := [],
              filters_applied := none, statistics := none, timestamp := 5 }),
      ("b", { answer := "y", mode := "SMART_FULL", filtered_docs := [],
              filters_applied := none, statistics := none, timestamp := 0 })]
     "a" 31 (by decide)⟩

/-- Claim C7: for a record set whose amounts sort successfully and any
`page_size ≥ 1`, slicing the amount-descending sort into pages
`[(page-1)*page_size, page*page_size)` for pages 1..total_pages (with
`total_pages = ⌈total/page_size⌉`) tiles the whole sorted list with no
gaps and no overlaps, and the pagination metadata satisfies
`has_next ↔ page*page_size < total_items` and `has_prev ↔ page > 1`,
matching the slice boundaries exactly. -/
theorem c7_pagination_tiles (docs : List Record) (page page_size : Nat)
    (sorted : List Record) (hps : 1 ≤ page_size) (hpg : 1 ≤ page)
    (hsort : sortDocsByAmountDesc docs = .ok sorted) :
    sorted.length = docs.length ∧
    ((List.range ((docs.length + page_size - 1) / page_size)).map
      fun i => (sorted.drop (i * page_size)).take page_size).flatten = sorted ∧
    ∃ pg : Pagination,
      paginate docs page page_size =
        .ok ((sorted.drop ((page - 1) * page_size)).take page_size, pg) ∧
      pg.total_items = docs.length ∧
      pg.total_pages = (docs.length + page_size - 1) / page_size ∧
      (pg.has_next = true ↔ page * page_size < docs.length) ∧
      (pg.has_prev = true ↔ 1 < page) := by
  have hlen := sortDocs_length docs sorted hsort
  refine ⟨hlen, ?_, ?_⟩
  · rw [← hlen]
    exact range_slices_tile page_size hps sorted.length sorted (le_refl _)
  · refine ⟨_, paginate_ok docs sorted page page_size hsort, rfl, rfl, ?_, ?_⟩
    · have hmul : (page - 1) * page_size + page_size = page * page_size := by
        cases page with
        | zero => exact absurd hpg (by simp)
        | succ p => simp [Nat.succ_sub_one, Nat.succ_mul]
      simp only [hmul, decide_eq_true_eq]
    · simp only [decide_eq_true_eq]

/-- Witness for C7 on two records with page 1 of size 1. -/
theorem c7_pagination_tiles_witness :
    1 ≤ 1 ∧
    sortDocsByAmountDesc [{ amount := some (.num 10) }, { amount := some (.num 3) }] =
      .ok [{ amount := some (.num 10) }, { amount := some (.num 3) }] ∧
    (([{ amount := some (.num 10) }, { amount := some (.num 3) }] : List Record).length = 2 ∧
     ((List.range ((2 + 1 - 1) / 1)).map
       fun i => (([{ amount := some (.num 10) }, { amount := some (.num 3) }] : List Record).drop
         (i * 1)).take 1).flatten =
       [{ amount := some (.num 10) }, { amount := some (.num 3) }] ∧
     ∃ pg : Pagination,
       paginate [{ amount := some (.num 10) }, { amount := some (.num 3) }] 1 1 =
         .ok ((([{ amount := some (.num 10) }, { amount := some (.num 3) }] :
            List Record).drop ((1 - 1) * 1)).take 1, pg) ∧
       pg.total_items = 2 ∧ pg.total_pages = (2 + 1 - 1) / 1 ∧
       (pg.has_next = true ↔ 1 * 1 < 2) ∧ (pg.has_prev = true ↔ 1 < 1)) := by
  refine ⟨by decide, by decide, ?_⟩
  have h := c7_pagination_tiles
    [{ amount := some (.num 10) }, { amount := some (.num 3) }] 1 1
    [{ amount := some (.num 10) }, { amount := some (.num 3) }]
    (by decide) (by decide) (by decide)
  exact h

/-- Claim C1, counterexample: the claim says every request whose query
identity has an unexpired Cache Entry is served from the cache, for every
page including page 1.  Here the request's query id `q1` has a fresh
entry (inserted at minute 0, read at minute 1), yet the page-1 request
falls through to the full pipeline (`recompute`) — the code only reads
the cache when `page > 1`. -/
theorem c1_counterexample :
    lookupC
      [("q1", { answer := "a", mode := "SMART_FULL",
                filtered_docs := [{ amount := some (.num 10) }],
                filters_applied := some [], statistics := none, timestamp := 0 })] "q1" =
      some { answer := "a", mode := "SMART_FULL",
             filtered_docs := [{ amount := some (.num 10) }],
             filters_applied := some [], statistics := none, timestamp := 0 } ∧
    (1 : Int) - 0 ≤ CACHE_TTL_MINUTES ∧
    promptDispatch (fun _ _ => "g") {}
      { prompt := "p", page := 1, query_id := some "q1" }
      [("q1", { answer := "a", mode := "SMART_FULL",
                filtered_docs := [{ amount := some (.num 10) }],
                filters_applied := some [], statistics := none, timestamp := 0 })] 1 =
      (.recompute,
       [("q1", { answer := "a", mode := "SMART_FULL",
                 filtered_docs := [{ amount := some (.num 10) }],
                 filters_applied := some [], statistics := none, timestamp := 0 })]) :=
  ⟨by decide, by decide, by decide⟩

/-- Claim C1 (amended): for every request with page > 1 whose query
identity holds an unexpired Cache Entry, the `/prompt` dispatch never
runs the full pipeline, and the resulting cache is the swept cache.
When `show_all` is unset or the entry's filtered set is empty, the
response is served from the entry alone — answer, mode, filter
descriptions, statistics and matching count are the entry's fields, with
no transaction list.  When `show_all` is set and the entry's filtered
set is non-empty, then provided the amount sort and the per-record API
formatting succeed, the response additionally carries the transaction
list equal to the `format_transaction_for_api` image of the slice
`[(page-1)*page_size, page*page_size)` of the entry's filtered record
set sorted by amount descending, plus the matching pagination metadata;
if the sort or the formatting raises, the request fails with HTTP 500
instead of recomputing.  A page-1 request always recomputes, even on a
cache hit (see the counterexample). -/
theorem c1_cached_pagination (genId : String → FilterSet → String)
    (filters : FilterSet) (req : PromptRequest) (cache : Cache) (now : Int)
    (cd : CacheData)
    (hnd : cacheKeysNodup cache)
    (hl : lookupC cache (reqQueryId genId filters req) = some cd)
    (hf : now - cd.timestamp ≤ CACHE_TTL_MINUTES)
    (hpage : 1 < req.page) :
    (promptDispatch genId filters req cache now).1 ≠ PromptOutcome.recompute ∧
    (promptDispatch genId filters req cache now).2 = cleanup_expired_cache now cache ∧
    (req.show_all = false ∨ cd.filtered_docs = [] →
      promptDispatch genId filters req cache now =
        (.cached
          { query_id := reqQueryId genId filters req, answer := cd.answer,
            mode := cd.mode,
            matching_transactions_count := cd.filtered_docs.length,
            filters_applied := cd.filters_applied, statistics := cd.statistics },
         cleanup_expired_cache now cache)) ∧
    (∀ (sorted : List Record) (txns : List TransactionInfo),
      req.show_all = true → cd.filtered_docs ≠ [] →
      sortDocsByAmountDesc cd.filtered_docs = .ok sorted →
      mapME format_transaction_for_api
        ((sorted.drop ((req.page - 1) * req.page_size)).take req.page_size) = .ok txns →
      promptDispatch genId filters req cache now =
        (.cached
          { query_id := reqQueryId genId filters req, answer := cd.answer,
            mode := cd.mode,
            matching_transactions_count := cd.filtered_docs.length,
            filters_applied := cd.filters_applied,
            transactions := some txns,
            pagination := some
              { page := req.page, page_size := req.page_size,
                total_items := cd.filtered_docs.length,
                total_pages :=
                  (cd.filtered_docs.length + req.page_size - 1) / req.page_size,
                has_next := decide
                  ((req.page - 1) * req.page_size + req.page_size <
                    cd.filtered_docs.length),
                has_prev := decide (1 < req.page) },
            statistics := cd.statistics },
         cleanup_expired_cache now cache)) ∧
    (∀ e : String, req.show_all = true → cd.filtered_docs ≠ [] →
      (sortDocsByAmountDesc cd.filtered_docs = .error e ∨
        ∃ sorted : List Record, sortDocsByAmountDesc cd.filtered_docs = .ok sorted ∧
          mapME format_transaction_for_api
            ((sorted.drop ((req.page - 1) * req.page_size)).take req.page_size) =
            .error e) →
      promptDispatch genId filters req cache now =
        (.serverError e, cleanup_expired_cache now cache)) := by
  have hget := get_cached_pos cache (reqQueryId genId filters req) now cd hnd hl hf
  refine ⟨?_, ?_, ?_, ?_, ?_⟩
  · unfold promptDispatch
    simp only []
    rw [hget]
    simp only []
    rw [if_pos hpage]
    by_cases hc : (req.show_all && !cd.filtered_docs.isEmpty) = true
    · rw [if_pos hc]
      cases hp : paginate cd.filtered_docs req.page req.page_size with
      | error e => simp
      | ok pr =>
        simp only []
        cases hm : mapME format_transaction_for_api pr.1 with
        | error e => simp
        | ok txns => simp
    · rw [if_neg hc]
      simp
  · unfold promptDispatch
    simp only []
    rw [hget]
    simp only []
    rw [if_pos hpage]
    by_cases hc : (req.show_all && !cd.filtered_docs.isEmpty) = true
    · rw [if_pos hc]
      cases hp : paginate cd.filtered_docs req.page req.page_size with
      | error e => simp
      | ok pr =>
        simp only []
        cases hm : mapME format_transaction_for_api pr.1 with
        | error e => simp
        | ok txns => simp
    · rw [if_neg hc]
  · intro hdis
    have hc : (req.show_all && !cd.filtered_docs.isEmpty) = false := by
      rcases hdis with h | h
      · rw [h]
        rfl
      · rw [h]
        simp
    unfold promptDispatch
    simp only []
    rw [hget]
    simp only []
    rw [if_pos hpage, if_neg (by simp [hc])]
  · intro sorted txns hshow hne hsort hmap
    have hc : (req.show_all && !cd.filtered_docs.isEmpty) = true := by
      rw [hshow]
      simpa [List.isEmpty_iff] using hne
    unfold promptDispatch
    simp only []
    rw [hget]
    simp only []
    rw [if_pos hpage, if_pos hc,
      paginate_ok cd.filtered_docs sorted req.page req.page_size hsort]
    simp only []
    rw [hmap]
  · intro e hshow hne hdis
    have hc : (req.show_all && !cd.filtered_docs.isEmpty) = true := by
      rw [hshow]
      simpa [List.isEmpty_iff] using hne
    unfold promptDispatch
    simp only []
    rw [hget]
    simp only []
    rw [if_pos hpage, if_pos hc]
    rcases hdis with hserr | ⟨sorted, hsort, hmerr⟩
    · rw [paginate_err cd.filtered_docs req.page req.page_size e hserr]
    · rw [paginate_ok cd.filtered_docs sorted req.page req.page_size hsort]
      simp only []
      rw [hmerr]

/-- Witness for C1: a page-2, size-1, `show_all` request hitting a fresh
Cache Entry with two records (amounts 10 and 3); the dispatch serves the
second element of the descending sort, formatted for the API, without
recomputing. -/
theorem c1_cached_pagination_witness :
    cacheKeysNodup
      [("q1", { answer := "a", mode := "SMART_FULL",
                filtered_docs := [{ amount := some (.num 10) },
                                  { amount := some (.num 3) }],
                filters_applied := some [], statistics := none, timestamp := 0 })] ∧
    lookupC
      [("q1", { answer := "a", mode := "SMART_FULL",
                filtered_docs := [{ amount := some (.num 10) },
                                  { amount := some (.num 3) }],
                filters_applied := some [], statistics := none, timestamp := 0 })]
      (reqQueryId (fun _ _ => "g") {}
        { prompt := "p", page := 2, page_size := 1, query_id := some "q1" }) =
      some { answer := "a", mode := "SMART_FULL",
             filtered_docs := [{ amount := some (.num 10) },
                               { amount := some (.num 3) }],
             filters_applied := some [], statistics := none, timestamp := 0 } ∧
    (1 : Int) - (0 : Int) ≤ CACHE_TTL_MINUTES ∧
    1 < (2 : Nat) ∧
    (promptDispatch (fun _ _ => "g") {}
      { prompt := "p", page := 2, page_size := 1, query_id := some "q1" }
      [("q1", { answer := "a", mode := "SMART_FULL",
                filtered_docs := [{ amount := some (.num 10) },
                                  { amount := some (.num 3) }],
                filters_applied := some [], statistics := none, timestamp := 0 })]
      1).1 ≠ PromptOutcome.recompute ∧
    promptDispatch (fun _ _ => "g") {}
      { prompt := "p", page := 2, page_size := 1, query_id := some "q1" }
      [("q1", { answer := "a", mode := "SMART_FULL",
                filtered_docs := [{ amount := some (.num 10) },
                                  { amount := some (.num 3) }],
                filters_applied := some [], statistics := none, timestamp := 0 })]
      1 =
      (.cached
        { query_id := "q1", answer := "a", mode := "SMART_FULL",
          matching_transactions_count := 2, filters_applied := some [],
          transactions := some
            [{ transaction_id := "N/A", account_number := "N/A", date := "N/A",
               amount := 3, type := "N/A", mode := "N/A", balance_after := 0,
               narration := "N/A", reference := "N/A" }],
          pagination := some
            { page := 2, page_size := 1, total_items := 2, total_pages := 2,
              has_next := false, has_prev := true },
          statistics := none },
       cleanup_expired_cache 1
         [("q1", { answer := "a", mode := "SMART_FULL",
                   filtered_docs := [{ amount := some (.num 10) },
                                     { amount := some (.num 3) }],
                   filters_applied := some [], statistics := none,
                   timestamp := 0 })]) :=
  ⟨by decide, by decide, by decide, by decide,
   (c1_cached_pagination (fun _ _ => "g") {}
      { prompt := "p", page := 2, page_size := 1, query_id := some "q1" }
      [("q1", { answer := "a", mode := "SMART_FULL",
                filtered_docs := [{ amount := some (.num 10) },
                                  { amount := some (.num 3) }],
                filters_applied := some [], statistics := none, timestamp := 0 })]
      1
      { answer := "a", mode := "SMART_FULL",
        filtered_docs := [{ amount := some (.num 10) },
                          { amount := some (.num 3) }],
        filters_applied := some [], statistics := none, timestamp := 0 }
      (by decide) (by decide) (by decide) (by decide)).1,
   (c1_cached_pagination (fun _ _ => "g") {}
      { prompt := "p", page := 2, page_size := 1, query_id := some "q1" }
      [("q1", { answer := "a", mode := "SMART_FULL",
                filtered_docs := [{ amount := some (.num 10) },
                                  { amount := some (.num 3) }],
                filters_applied := some [], statistics := none, timestamp := 0 })]
      1
      { answer := "a", mode := "SMART_FULL",
        filtered_docs := [{ amount := some (.num 10) },
                          { amount := some (.num 3) }],
        filters_applied := some [], statistics := none, timestamp := 0 }
      (by decide) (by decide) (by decide) (by decide)).2.2.2.1
     [{ amount := some (.num 10) }, { amount := some (.num 3) }]
     [{ transaction_id := "N/A", account_number := "N/A", date := "N/A",
        amount := 3, type := "N/A", mode := "N/A", balance_after := 0,
        narration := "N/A", reference := "N/A" }]
     (by decide) (by decide) (by decide) (by decide)⟩
